import Mathlib

/-!
The augmented-Lagrangian outer solver of HiOp (`hiopAugLagrSolver`).

A shallow embedding of `src/Optimization/hiopAugLagrSolver.cpp`.

* C++ `double` values are embedded as rationals `ℚ`: comparisons and the
  arithmetic `+`, `*`, `/`, `max` are exact (no rounding, no NaN, no infinity).
* C++ `int` values (`iter_num`, `max_n_it`, `_n_accep_iters`, `accep_n_it`) are
  embedded as mathematical integers `Int`; the two coincide as long as the
  values stay inside the 32-bit range.
* `hiopVectorPar` and the raw `double*` buffers are embedded as `List ℚ`.
* The problem adapter `nlp`, the inner Filter-IPM solve and the residual norms
  are external collaborators: their state is an arbitrary type `A` and their
  behaviour an arbitrary record `Collaborators A`.
-/

namespace hiop

/-! ## Data model -/

/-- Modelled from the spec: the enumeration `hiopSolveStatus`, declared outside the
files at hand; its members are the ones used by the solver and listed in the data model
(success, success within relative tolerance, acceptable level, max iterations exceeded,
incomplete initialisation, not yet called, pending, user stopped). -/
inductive hiopSolveStatus where
  | Solve_Success
  | Solve_Success_RelTol
  | Solve_Acceptable_Level
  | Max_Iter_Exceeded
  | NlpSolve_IncompleteInit
  | NlpSolve_SolveNotCalled
  | NlpSolve_Pending
  | User_Stopped
  deriving DecidableEq, Repr

/-- The part of `hiopResidualAugLagr` the solver touches: the two buffers filled by
`eval_residuals` and the two norms recomputed from them by `update`. -/
structure hiopResidualAugLagr where
  penaltyFcn : List ℚ
  gradLagr : List ℚ
  nrmFeas : ℚ
  nrmOptim : ℚ
  deriving DecidableEq, Repr

/-- Modelled from the spec: the interface of the external collaborators of the
augmented-Lagrangian engine (the adapter `hiopAugLagrNlpAdapter` with its option store,
the residual norms of `hiopResidualAugLagr::update`, and the inner Filter-IPM solve on
the subproblem built over the adapter). `A` is the collaborators' state; every call may
change it. -/
structure Collaborators (A : Type) where
  /-- Option store: `nlp->options->GetNumeric(name)`. -/
  GetNumeric : A → String → ℚ
  /-- Option store: `nlp->options->GetInteger(name)`. -/
  GetInteger : A → String → Int
  /-- Adapter: `nlp->get_prob_sizes(n, dum1)`; returns the number of variables `n`. -/
  get_prob_sizes : A → Nat
  /-- Adapter: `nlp->get_penalty_size(m)`; returns the size `m` of the penalty term. -/
  get_penalty_size : A → Nat
  /-- Adapter: `nlp->get_user_starting_point(n, x)`; returns the filled buffer. -/
  get_user_starting_point : A → Nat → List ℚ × A
  /-- Adapter: `nlp->set_starting_point(n, x)`. -/
  set_starting_point : A → Nat → List ℚ → A
  /-- Adapter: `nlp->set_lambda(lam)`. -/
  set_lambda : A → List ℚ → A
  /-- Adapter: `nlp->set_rho(rho)`. -/
  set_rho : A → ℚ → A
  /-- Adapter: `nlp->eval_f_user(n, x, new_x, f)`; returns the objective value. -/
  eval_f_user : A → Nat → List ℚ → ℚ × A
  /-- Adapter: `nlp->eval_residuals(n, x, new_x, penaltyFcn, gradLagr)`; returns the two
  filled buffers. -/
  eval_residuals : A → Nat → List ℚ → (List ℚ × List ℚ) × A
  /-- Residual: the feasibility norm computed by `resid->update()`. -/
  feasibilityNorm : List ℚ → ℚ
  /-- Residual: the optimality norm computed by `resid->update()`. -/
  optimalityNorm : List ℚ → ℚ
  /-- Inner solve: build `hiopNlpDenseConstraints subproblem(*nlp)`, run
  `hiopAlgFilterIPM` on it and read the solution with `getSolution`. -/
  solveSubproblem : A → List ℚ × A

/-- The members of `hiopAugLagrSolver`. `runStats_nIter` stands for `nlp->runStats.nIter`. -/
structure hiopAugLagrSolver (A : Type) where
  nlp : A
  runStats_nIter : Int
  n : Nat
  m : Nat
  _it_curr : List ℚ
  _lam_curr : List ℚ
  _rho_curr : ℚ
  residual : hiopResidualAugLagr
  _err_feas0 : ℚ
  _err_optim0 : ℚ
  _solverStatus : hiopSolveStatus
  iter_num : Int
  _n_accep_iters : Int
  _f_nlp : ℚ
  _err_feas : ℚ
  _err_optim : ℚ
  eps_tol : ℚ
  eps_rtol : ℚ
  eps_tol_accep : ℚ
  max_n_it : Int
  accep_n_it : Int
  rho_max : ℚ

namespace hiopAugLagrSolver

variable {A : Type}

/-! ## Operations -/

/-- The function `hiopAugLagrSolver::checkTermination(err_feas, err_optim, iter_num, status)`:
returns the Boolean result, the value left in the reference argument `status`, and the
solver (whose counter `_n_accep_iters` may have changed). -/
def checkTermination (s : hiopAugLagrSolver A) (err_feas err_optim : ℚ) (iter_num : Int)
    (status : hiopSolveStatus) : Bool × hiopSolveStatus × hiopAugLagrSolver A :=
  if err_feas ≤ s.eps_tol ∧ err_optim ≤ s.eps_tol then
    (true, hiopSolveStatus.Solve_Success, s)
  else if iter_num ≥ s.max_n_it then
    (true, hiopSolveStatus.Max_Iter_Exceeded, s)
  else if s.eps_rtol > 0 ∧
      (err_optim ≤ s.eps_rtol * s._err_optim0 ∧ err_feas ≤ s.eps_rtol * s._err_feas0) then
    (true, hiopSolveStatus.Solve_Success_RelTol, s)
  else
    let s1 : hiopAugLagrSolver A :=
      if err_feas ≤ s.eps_tol_accep ∧ err_optim ≤ s.eps_tol_accep then
        { s with _n_accep_iters := s._n_accep_iters + 1 }
      else
        { s with _n_accep_iters := 0 }
    if s1._n_accep_iters ≥ s1.accep_n_it then
      (true, hiopSolveStatus.Solve_Acceptable_Level, s1)
    else
      (false, status, s1)

/-- The loop of `updateLambda`: for `i = 0, …, m-1` do `_lam_data[i] += penaltyFcn[i]/rho`. -/
def updateLambdaLoop (penaltyFcn : List ℚ) (rho : ℚ) (m : Nat) (lam : List ℚ) : List ℚ :=
  (List.range m).foldl
    (fun lam_data i => lam_data.set i (lam_data.getD i 0 + penaltyFcn.getD i 0 / rho)) lam

/-- The function `hiopAugLagrSolver::updateLambda()`. -/
def updateLambda (c : Collaborators A) (s : hiopAugLagrSolver A) : hiopAugLagrSolver A :=
  let lam := updateLambdaLoop s.residual.penaltyFcn s._rho_curr s.m s._lam_curr
  { s with _lam_curr := lam, nlp := c.set_lambda s.nlp lam }

/-- The function `hiopAugLagrSolver::updateRho()`. -/
def updateRho (c : Collaborators A) (s : hiopAugLagrSolver A) : hiopAugLagrSolver A :=
  let rho := max (10 * s._rho_curr) s.rho_max
  { s with _rho_curr := rho, nlp := c.set_rho s.nlp rho }

/-- The function `hiopAugLagrSolver::reInitializeNlpObjects()` (empty body). -/
def reInitializeNlpObjects (s : hiopAugLagrSolver A) : hiopAugLagrSolver A := s

/-- The function `hiopAugLagrSolver::reloadOptions()`. -/
def reloadOptions (c : Collaborators A) (s : hiopAugLagrSolver A) : hiopAugLagrSolver A :=
  { s with
    eps_tol := c.GetNumeric s.nlp "tolerance"
    eps_rtol := c.GetNumeric s.nlp "rel_tolerance"
    eps_tol_accep := c.GetNumeric s.nlp "acceptable_tolerance"
    max_n_it := c.GetInteger s.nlp "max_iter"
    accep_n_it := c.GetInteger s.nlp "acceptable_iterations" }

/-- The function `hiopAugLagrSolver::resetSolverStatus()`. -/
def resetSolverStatus (s : hiopAugLagrSolver A) : hiopAugLagrSolver A :=
  { s with _n_accep_iters := 0, _solverStatus := hiopSolveStatus.NlpSolve_IncompleteInit }

/-- The function `hiopAugLagrSolver::evalNlp(iter, f)` called as `evalNlp(_it_curr, _f_nlp)`:
stores the user objective at the current iterate in `_f_nlp`. -/
def evalNlp (c : Collaborators A) (s : hiopAugLagrSolver A) : hiopAugLagrSolver A :=
  let r := c.eval_f_user s.nlp s.n s._it_curr
  { s with _f_nlp := r.1, nlp := r.2 }

/-- The function `hiopAugLagrSolver::evalNlpErrors(current_iterate, resid, err_feas, err_optim)`
called as `evalNlpErrors(_it_curr, residual, _err_feas, _err_optim)`. -/
def evalNlpErrors (c : Collaborators A) (s : hiopAugLagrSolver A) : hiopAugLagrSolver A :=
  let r := c.eval_residuals s.nlp s.n s._it_curr
  let resid : hiopResidualAugLagr :=
    { penaltyFcn := r.1.1
      gradLagr := r.1.2
      nrmFeas := c.feasibilityNorm r.1.1
      nrmOptim := c.optimalityNorm r.1.2 }
  { s with nlp := r.2, residual := resid, _err_feas := resid.nrmFeas, _err_optim := resid.nrmOptim }

/-- The first half of the body of the `while(notConverged)` loop of `run`: the inner solve of
the subproblem, the copy of its solution into `_it_curr`, then `evalNlp` and `evalNlpErrors`. -/
def solveAndEval (c : Collaborators A) (s : hiopAugLagrSolver A) : hiopAugLagrSolver A :=
  let r := c.solveSubproblem s.nlp
  let s1 : hiopAugLagrSolver A := { s with nlp := r.2, _it_curr := r.1 }
  evalNlpErrors c (evalNlp c s1)

/-- The second half of the body of the loop of `run`, after a termination check that returned
false: `set_starting_point`, `updateLambda`, `updateRho`, `iter_num++`. -/
def advance (c : Collaborators A) (s : hiopAugLagrSolver A) : hiopAugLagrSolver A :=
  let s4 : hiopAugLagrSolver A :=
    { s with nlp := c.set_starting_point s.nlp s.n s._it_curr }
  let s5 := updateRho c (updateLambda c s4)
  { s5 with iter_num := s5.iter_num + 1, runStats_nIter := s5.iter_num + 1 }

/-- One pass through the body of the `while(notConverged)` loop of `run`: the solver when the
pass is over, and whether the pass left the loop through `break`. -/
def loopBody (c : Collaborators A) (s : hiopAugLagrSolver A) :
    hiopAugLagrSolver A × Bool :=
  let s2 := solveAndEval c s
  let t := checkTermination s2 s2._err_feas s2._err_optim s2.iter_num s2._solverStatus
  let s3 : hiopAugLagrSolver A := { t.2.2 with _solverStatus := t.2.1 }
  if t.1 then (s3, true) else (advance c s3, false)

/-- The loop `while(notConverged) { … }` of `run`, entered with `notConverged = true`;
`fuel` bounds the number of passes, `none` means the bound was reached. -/
def outerLoop (c : Collaborators A) : Nat → hiopAugLagrSolver A → Option (hiopAugLagrSolver A)
  | 0, _ => none
  | fuel + 1, s =>
    let r := loopBody c s
    if r.2 then some r.1 else outerLoop c fuel r.1

/-- The part of `hiopAugLagrSolver::run()` up to the initial evaluation of the problem
(`evalNlp`, `evalNlpErrors`), just before the first termination check. -/
def runStart (c : Collaborators A) (s : hiopAugLagrSolver A) : hiopAugLagrSolver A :=
  let s0 := resetSolverStatus (reInitializeNlpObjects (reloadOptions c s))
  let s1 : hiopAugLagrSolver A := { s0 with _solverStatus := hiopSolveStatus.NlpSolve_SolveNotCalled }
  let r := c.get_user_starting_point s1.nlp s1.n
  let s2 : hiopAugLagrSolver A :=
    { s1 with _it_curr := r.1, nlp := c.set_starting_point r.2 s1.n r.1 }
  let lam := s2._lam_curr.map (fun _ => (1 : ℚ))
  let s3 : hiopAugLagrSolver A := { s2 with _lam_curr := lam, nlp := c.set_lambda s2.nlp lam }
  let s4 : hiopAugLagrSolver A := { s3 with _rho_curr := 100, nlp := c.set_rho s3.nlp 100 }
  let s5 : hiopAugLagrSolver A := { s4 with iter_num := 0, runStats_nIter := 0 }
  evalNlpErrors c (evalNlp c s5)

/-- The part of `hiopAugLagrSolver::run()` before the loop: `runStart`, the initial termination
check, the recording of the initial errors and the assignment `_solverStatus = NlpSolve_Pending`;
the Boolean is `notConverged`. -/
def runInit (c : Collaborators A) (s : hiopAugLagrSolver A) : hiopAugLagrSolver A × Bool :=
  let s6 := runStart c s
  let t := checkTermination s6 s6._err_feas s6._err_optim s6.iter_num s6._solverStatus
  let s7 : hiopAugLagrSolver A := { t.2.2 with _solverStatus := t.2.1 }
  let notConverged := !t.1
  let s8 : hiopAugLagrSolver A :=
    { s7 with _err_feas0 := s7._err_feas, _err_optim0 := s7._err_optim }
  ({ s8 with _solverStatus := hiopSolveStatus.NlpSolve_Pending }, notConverged)

/-- The function `hiopAugLagrSolver::run()` with at most `fuel` passes through the outer
loop: the returned status and the solver left behind. -/
def runFuel (c : Collaborators A) (fuel : Nat) (s : hiopAugLagrSolver A) :
    Option (hiopSolveStatus × hiopAugLagrSolver A) :=
  let r := runInit c s
  if r.2 then
    (outerLoop c fuel r.1).map (fun s1 => (s1._solverStatus, s1))
  else
    some (r.1._solverStatus, r.1)

/-- The function `hiopAugLagrSolver::run()`: the loop needs at most `max_n_it + 1` passes, since
`checkTermination` stops it as soon as `iter_num ≥ max_n_it`. -/
def run (c : Collaborators A) (s : hiopAugLagrSolver A) :
    Option (hiopSolveStatus × hiopAugLagrSolver A) :=
  runFuel c ((c.GetInteger s.nlp "max_iter").toNat + 1) s

/-- The constructor `hiopAugLagrSolver::hiopAugLagrSolver(nlp_in_)`, given the freshly built
adapter `nlp`: the member initialisers, the sizes read from the adapter, the allocated
vectors (taken as zero-filled), then `reloadOptions`, `reInitializeNlpObjects` and
`resetSolverStatus`. -/
def ctor (c : Collaborators A) (nlp : A) : hiopAugLagrSolver A :=
  let n := c.get_prob_sizes nlp
  let m := c.get_penalty_size nlp
  let s : hiopAugLagrSolver A :=
    { nlp := nlp
      runStats_nIter := 0
      n := n
      m := m
      _it_curr := List.replicate n 0
      _lam_curr := List.replicate m 0
      _rho_curr := 100
      residual :=
        { penaltyFcn := List.replicate m 0, gradLagr := List.replicate n 0
          nrmFeas := 0, nrmOptim := 0 }
      _err_feas0 := -1
      _err_optim0 := -1
      _solverStatus := hiopSolveStatus.NlpSolve_IncompleteInit
      iter_num := 0
      _n_accep_iters := 0
      _f_nlp := 0
      _err_feas := 0
      _err_optim := 0
      eps_tol := 1 / 10 ^ 6
      eps_rtol := 1 / 10 ^ 6
      eps_tol_accep := 1 / 10 ^ 4
      max_n_it := 1000
      accep_n_it := 5
      rho_max := 10 ^ 7 }
  resetSolverStatus (reInitializeNlpObjects (reloadOptions c s))

/-- The solver after `k` successive calls of `updateRho`. -/
def rhoAfter (c : Collaborators A) (k : Nat) (s : hiopAugLagrSolver A) : hiopAugLagrSolver A :=
  (updateRho c)^[k] s

/-! ## Sequences of termination checks -/

/-- The arguments `(err_feas, err_optim, iter_num)` of one call of `checkTermination`. -/
structure TermArgs where
  err_feas : ℚ
  err_optim : ℚ
  iter_num : Int
  deriving DecidableEq, Repr

/-- One call of `checkTermination` on the pair (status variable, solver). -/
def callCheck (p : hiopSolveStatus × hiopAugLagrSolver A) (x : TermArgs) :
    Bool × hiopSolveStatus × hiopAugLagrSolver A :=
  checkTermination p.2 x.err_feas x.err_optim x.iter_num p.1

/-- The status variable and the solver after the calls `xs`, made one after the other. -/
def afterCalls (p : hiopSolveStatus × hiopAugLagrSolver A) (xs : List TermArgs) :
    hiopSolveStatus × hiopAugLagrSolver A :=
  xs.foldl (fun q x => (callCheck q x).2) p

/-- The result (returned Boolean, status variable) of call number `k` (from 0) of `xs`. -/
def resultAt (p : hiopSolveStatus × hiopAugLagrSolver A) (xs : List TermArgs) (k : Nat) :
    Option (Bool × hiopSolveStatus) :=
  xs[k]?.map (fun x =>
    ((callCheck (afterCalls p (xs.take k)) x).1, (callCheck (afterCalls p (xs.take k)) x).2.1))

/-- The absolute-tolerance rule of `checkTermination` fires. -/
def absTolFires (s : hiopAugLagrSolver A) (x : TermArgs) : Prop :=
  x.err_feas ≤ s.eps_tol ∧ x.err_optim ≤ s.eps_tol

/-- The relative-tolerance rule of `checkTermination` holds. -/
def relTolHolds (s : hiopAugLagrSolver A) (x : TermArgs) : Prop :=
  s.eps_rtol > 0 ∧
    (x.err_optim ≤ s.eps_rtol * s._err_optim0 ∧ x.err_feas ≤ s.eps_rtol * s._err_feas0)

/-- None of the three rules tested before the acceptable-level rule fires. -/
def noEarlierRule (s : hiopAugLagrSolver A) (x : TermArgs) : Prop :=
  ¬ absTolFires s x ∧ x.iter_num < s.max_n_it ∧ ¬ relTolHolds s x

/-- Both errors are within the acceptable tolerance. -/
def passesAccep (s : hiopAugLagrSolver A) (x : TermArgs) : Prop :=
  x.err_feas ≤ s.eps_tol_accep ∧ x.err_optim ≤ s.eps_tol_accep

instance (s : hiopAugLagrSolver A) (x : TermArgs) : Decidable (absTolFires s x) := by
  unfold absTolFires; infer_instance

instance (s : hiopAugLagrSolver A) (x : TermArgs) : Decidable (relTolHolds s x) := by
  unfold relTolHolds; infer_instance

instance (s : hiopAugLagrSolver A) (x : TermArgs) : Decidable (noEarlierRule s x) := by
  unfold noEarlierRule; infer_instance

instance (s : hiopAugLagrSolver A) (x : TermArgs) : Decidable (passesAccep s x) := by
  unfold passesAccep; infer_instance

/-- The length of the run of consecutive calls within the acceptable tolerance that ends
the sequence `xs`. -/
def accepRun (s : hiopAugLagrSolver A) (xs : List TermArgs) : Nat :=
  (xs.reverse.takeWhile (fun x => decide (passesAccep s x))).length

/-! ## Reported outputs, assignments and call counts -/

/-- The function `hiopAugLagrSolver::getObjective()`; its body is `return 0.0; //TODO`. -/
def getObjective (_s : hiopAugLagrSolver A) : ℚ := 0

/-- The assignment that `checkTermination` executes on its reference argument `status`:
`some st` when the branch taken runs `status = st`, `none` when the function returns without
assigning. -/
def checkTerminationAssigns (s : hiopAugLagrSolver A) (err_feas err_optim : ℚ)
    (iter_num : Int) : Option hiopSolveStatus :=
  if err_feas ≤ s.eps_tol ∧ err_optim ≤ s.eps_tol then
    some hiopSolveStatus.Solve_Success
  else if iter_num ≥ s.max_n_it then
    some hiopSolveStatus.Max_Iter_Exceeded
  else if s.eps_rtol > 0 ∧
      (err_optim ≤ s.eps_rtol * s._err_optim0 ∧ err_feas ≤ s.eps_rtol * s._err_feas0) then
    some hiopSolveStatus.Solve_Success_RelTol
  else
    let s1 : hiopAugLagrSolver A :=
      if err_feas ≤ s.eps_tol_accep ∧ err_optim ≤ s.eps_tol_accep then
        { s with _n_accep_iters := s._n_accep_iters + 1 }
      else
        { s with _n_accep_iters := 0 }
    if s1._n_accep_iters ≥ s1.accep_n_it then
      some hiopSolveStatus.Solve_Acceptable_Level
    else
      none

/-- Counters of the calls received by the collaborators: inner solves, `set_lambda` calls and
`set_rho` calls. -/
structure CallCounts where
  solves : Nat
  lambdaSets : Nat
  rhoSets : Nat
  deriving DecidableEq, Repr

/-- The collaborators `c` with call counters attached to their state: every operation behaves
as in `c`; `solveSubproblem`, `set_lambda` and `set_rho` also advance their counter. -/
def counting (c : Collaborators A) : Collaborators (A × CallCounts) where
  GetNumeric := fun p name => c.GetNumeric p.1 name
  GetInteger := fun p name => c.GetInteger p.1 name
  get_prob_sizes := fun p => c.get_prob_sizes p.1
  get_penalty_size := fun p => c.get_penalty_size p.1
  get_user_starting_point := fun p n =>
    ((c.get_user_starting_point p.1 n).1, ((c.get_user_starting_point p.1 n).2, p.2))
  set_starting_point := fun p n x => (c.set_starting_point p.1 n x, p.2)
  set_lambda := fun p lam =>
    (c.set_lambda p.1 lam, { p.2 with lambdaSets := p.2.lambdaSets + 1 })
  set_rho := fun p rho => (c.set_rho p.1 rho, { p.2 with rhoSets := p.2.rhoSets + 1 })
  eval_f_user := fun p n x => ((c.eval_f_user p.1 n x).1, ((c.eval_f_user p.1 n x).2, p.2))
  eval_residuals := fun p n x =>
    ((c.eval_residuals p.1 n x).1, ((c.eval_residuals p.1 n x).2, p.2))
  feasibilityNorm := c.feasibilityNorm
  optimalityNorm := c.optimalityNorm
  solveSubproblem := fun p =>
    ((c.solveSubproblem p.1).1, ((c.solveSubproblem p.1).2, { p.2 with solves := p.2.solves + 1 }))

/-- The solver with the call counters removed from the collaborators' state. -/
def eraseCounts (s : hiopAugLagrSolver (A × CallCounts)) : hiopAugLagrSolver A :=
  { nlp := s.nlp.1
    runStats_nIter := s.runStats_nIter
    n := s.n
    m := s.m
    _it_curr := s._it_curr
    _lam_curr := s._lam_curr
    _rho_curr := s._rho_curr
    residual := s.residual
    _err_feas0 := s._err_feas0
    _err_optim0 := s._err_optim0
    _solverStatus := s._solverStatus
    iter_num := s.iter_num
    _n_accep_iters := s._n_accep_iters
    _f_nlp := s._f_nlp
    _err_feas := s._err_feas
    _err_optim := s._err_optim
    eps_tol := s.eps_tol
    eps_rtol := s.eps_rtol
    eps_tol_accep := s.eps_tol_accep
    max_n_it := s.max_n_it
    accep_n_it := s.accep_n_it
    rho_max := s.rho_max }

end hiopAugLagrSolver

/-! ## A concrete problem -/

/-- The state of a small concrete adapter: what the setters received and the number of
inner solves made so far. -/
structure DemoAdapter where
  x0 : List ℚ
  lambda : List ℚ
  rho : ℚ
  solves : Nat
  deriving DecidableEq, Repr

/-- Concrete collaborators: one variable, one penalty component, both residuals equal to the
iterate, the norms are sums of absolute values, every inner solve divides the starting point
by `shrink`, and the option store holds the default values. -/
def demoCollab (start shrink : ℚ) : Collaborators DemoAdapter where
  GetNumeric := fun _ name =>
    if name = "tolerance" then 1 / 10 ^ 6
    else if name = "rel_tolerance" then 1 / 10 ^ 6
    else if name = "acceptable_tolerance" then 1 / 10 ^ 4
    else 0
  GetInteger := fun _ name =>
    if name = "max_iter" then 1000
    else if name = "acceptable_iterations" then 5
    else 0
  get_prob_sizes := fun _ => 1
  get_penalty_size := fun _ => 1
  get_user_starting_point := fun a _ => ([start], a)
  set_starting_point := fun a _ x => { a with x0 := x }
  set_lambda := fun a lam => { a with lambda := lam }
  set_rho := fun a rho => { a with rho := rho }
  eval_f_user := fun a _ x => (x.sum, a)
  eval_residuals := fun a _ x => ((x, x), a)
  feasibilityNorm := fun v => (v.map abs).sum
  optimalityNorm := fun v => (v.map abs).sum
  solveSubproblem := fun a => (a.x0.map (fun v => v / shrink), { a with solves := a.solves + 1 })

/-- The adapter of the concrete problem before any call. -/
def demoAdapter : DemoAdapter := { x0 := [], lambda := [], rho := 0, solves := 0 }

/-- The concrete problem started at the origin, where both errors are zero. -/
def demoSolverAtZero : hiopAugLagrSolver DemoAdapter :=
  hiopAugLagrSolver.ctor (demoCollab 0 100) demoAdapter

/-- A solver object with two multipliers: `lambda = [1, 1]`, penalty function `[2, -1]`,
`rho = 100`. -/
def lambdaDemo : hiopAugLagrSolver DemoAdapter :=
  { hiopAugLagrSolver.ctor (demoCollab 1 100) demoAdapter with
    m := 2
    _lam_curr := [1, 1]
    _rho_curr := 100
    residual := { penaltyFcn := [2, -1], gradLagr := [0], nrmFeas := 3, nrmOptim := 0 } }

/-- A solver object for the relative-tolerance scenario: `eps_tol` unreachable,
`eps_rtol = 1e-2`, recorded initial errors `10`. -/
def relTolDemo : hiopAugLagrSolver DemoAdapter :=
  { hiopAugLagrSolver.ctor (demoCollab 1 100) demoAdapter with
    eps_tol := -1
    eps_rtol := 1 / 100
    _err_feas0 := 10
    _err_optim0 := 10 }

/-- A solver object on which the iteration cap, the relative tolerance and the acceptable
level can all be met at once: `max_n_it = 3`, `accep_n_it = 1`, `eps_rtol = 1e-2`, recorded
initial errors `10`. -/
def maxIterDemo : hiopAugLagrSolver DemoAdapter :=
  { hiopAugLagrSolver.ctor (demoCollab 1 100) demoAdapter with
    eps_rtol := 1 / 100
    max_n_it := 3
    accep_n_it := 1
    _n_accep_iters := 0
    _err_feas0 := 10
    _err_optim0 := 10 }

/-- Arguments of a call that is within the acceptable tolerance `1e-4` of the concrete
solver, but on which no earlier rule fires. -/
def accepPass : hiopAugLagrSolver.TermArgs := ⟨1 / 10 ^ 5, 1 / 10 ^ 5, 1⟩

/-- Arguments of a call that is outside the acceptable tolerance of the concrete solver. -/
def accepFail : hiopAugLagrSolver.TermArgs := ⟨1, 1, 1⟩

/-- A solver object of the concrete problem in the middle of a run, in terms of the values
that change during the run: the number of inner solves, the starting point held by the
adapter, the iterate, the multiplier, the penalty parameter, the status, the iteration number
and the acceptable-iteration counter. -/
def demoState (solves : Nat) (x0 x lam rho : ℚ) (st : hiopSolveStatus) (it acc : Int) :
    hiopAugLagrSolver DemoAdapter :=
  { nlp := { x0 := [x0], lambda := [lam], rho := rho, solves := solves }
    runStats_nIter := it
    n := 1
    m := 1
    _it_curr := [x]
    _lam_curr := [lam]
    _rho_curr := rho
    residual := { penaltyFcn := [x], gradLagr := [x], nrmFeas := x, nrmOptim := x }
    _err_feas0 := 1
    _err_optim0 := 1
    _solverStatus := st
    iter_num := it
    _n_accep_iters := acc
    _f_nlp := x
    _err_feas := x
    _err_optim := x
    eps_tol := 1 / 10 ^ 6
    eps_rtol := 1 / 10 ^ 6
    eps_tol_accep := 1 / 10 ^ 4
    max_n_it := 1000
    accep_n_it := 5
    rho_max := 10 ^ 7 }

/-- The solver object built by the constructor on the concrete problem. -/
def demoSolver : hiopAugLagrSolver DemoAdapter :=
  hiopAugLagrSolver.ctor (demoCollab 1 100) demoAdapter

/-- The solver object built by the constructor on the concrete problem with call counters
attached, all at zero. -/
def demoSolverCounted : hiopAugLagrSolver (DemoAdapter × hiopAugLagrSolver.CallCounts) :=
  hiopAugLagrSolver.ctor (hiopAugLagrSolver.counting (demoCollab 1 100)) (demoAdapter, ⟨0, 0, 0⟩)

namespace hiopAugLagrSolver

variable {A : Type}

/-! ## Values of the concrete solver object -/

theorem demoSolver_eps_tol : demoSolver.eps_tol = 1 / 10 ^ 6 := by
  simp [demoSolver, ctor, resetSolverStatus, reInitializeNlpObjects, reloadOptions, demoCollab]

theorem demoSolver_eps_rtol : demoSolver.eps_rtol = 1 / 10 ^ 6 := by
  simp [demoSolver, ctor, resetSolverStatus, reInitializeNlpObjects, reloadOptions, demoCollab]

theorem demoSolver_eps_tol_accep : demoSolver.eps_tol_accep = 1 / 10 ^ 4 := by
  simp [demoSolver, ctor, resetSolverStatus, reInitializeNlpObjects, reloadOptions, demoCollab]

theorem demoSolver_max_n_it : demoSolver.max_n_it = 1000 := by
  simp [demoSolver, ctor, resetSolverStatus, reInitializeNlpObjects, reloadOptions, demoCollab]

theorem demoSolver_accep_n_it : demoSolver.accep_n_it = 5 := by
  simp [demoSolver, ctor, resetSolverStatus, reInitializeNlpObjects, reloadOptions, demoCollab]

theorem demoSolver_n_accep_iters : demoSolver._n_accep_iters = 0 := by
  simp [demoSolver, ctor, resetSolverStatus, reInitializeNlpObjects, reloadOptions]

theorem demoSolver_err0 : demoSolver._err_feas0 = -1 ∧ demoSolver._err_optim0 = -1 := by
  simp [demoSolver, ctor, resetSolverStatus, reInitializeNlpObjects, reloadOptions]

theorem demoSolver_rho : demoSolver._rho_curr = 100 ∧ demoSolver.rho_max = 10 ^ 7 := by
  simp [demoSolver, ctor, resetSolverStatus, reInitializeNlpObjects, reloadOptions]

/-! ## The termination test, rule by rule -/

theorem checkTermination_of_absTol (s : hiopAugLagrSolver A) (err_feas err_optim : ℚ)
    (iter_num : Int) (status : hiopSolveStatus)
    (h : err_feas ≤ s.eps_tol ∧ err_optim ≤ s.eps_tol) :
    checkTermination s err_feas err_optim iter_num status =
      (true, hiopSolveStatus.Solve_Success, s) := by
  unfold checkTermination
  rw [if_pos h]

theorem checkTermination_of_maxIter (s : hiopAugLagrSolver A) (err_feas err_optim : ℚ)
    (iter_num : Int) (status : hiopSolveStatus)
    (h : ¬ (err_feas ≤ s.eps_tol ∧ err_optim ≤ s.eps_tol)) (hit : iter_num ≥ s.max_n_it) :
    checkTermination s err_feas err_optim iter_num status =
      (true, hiopSolveStatus.Max_Iter_Exceeded, s) := by
  unfold checkTermination
  rw [if_neg h, if_pos hit]

theorem checkTermination_of_relTol (s : hiopAugLagrSolver A) (err_feas err_optim : ℚ)
    (iter_num : Int) (status : hiopSolveStatus)
    (h : ¬ (err_feas ≤ s.eps_tol ∧ err_optim ≤ s.eps_tol)) (hit : ¬ iter_num ≥ s.max_n_it)
    (hrel : s.eps_rtol > 0 ∧
      (err_optim ≤ s.eps_rtol * s._err_optim0 ∧ err_feas ≤ s.eps_rtol * s._err_feas0)) :
    checkTermination s err_feas err_optim iter_num status =
      (true, hiopSolveStatus.Solve_Success_RelTol, s) := by
  unfold checkTermination
  rw [if_neg h, if_neg hit, if_pos hrel]

/-- The value of `checkTermination` when none of the first three rules fires: the counter is
advanced or reset, and the result depends on the new counter alone. -/
theorem checkTermination_of_noEarlier (s : hiopAugLagrSolver A) (err_feas err_optim : ℚ)
    (iter_num : Int) (status : hiopSolveStatus)
    (h : ¬ (err_feas ≤ s.eps_tol ∧ err_optim ≤ s.eps_tol)) (hit : ¬ iter_num ≥ s.max_n_it)
    (hrel : ¬ (s.eps_rtol > 0 ∧
      (err_optim ≤ s.eps_rtol * s._err_optim0 ∧ err_feas ≤ s.eps_rtol * s._err_feas0))) :
    checkTermination s err_feas err_optim iter_num status =
      (if (if err_feas ≤ s.eps_tol_accep ∧ err_optim ≤ s.eps_tol_accep
            then s._n_accep_iters + 1 else 0) ≥ s.accep_n_it
        then (true, hiopSolveStatus.Solve_Acceptable_Level,
          { s with _n_accep_iters :=
              if err_feas ≤ s.eps_tol_accep ∧ err_optim ≤ s.eps_tol_accep
                then s._n_accep_iters + 1 else 0 })
        else (false, status,
          { s with _n_accep_iters :=
              if err_feas ≤ s.eps_tol_accep ∧ err_optim ≤ s.eps_tol_accep
                then s._n_accep_iters + 1 else 0 })) := by
  unfold checkTermination
  rw [if_neg h, if_neg hit, if_neg hrel]
  by_cases hp : err_feas ≤ s.eps_tol_accep ∧ err_optim ≤ s.eps_tol_accep
  · simp only [if_pos hp]
  · simp only [if_neg hp]

/-! ## C2 -/

/-- C2: whenever both errors are within `eps_tol`, `checkTermination` returns true and sets the
status to `Solve_Success`, for every `iter_num` (also `iter_num ≥ max_n_it`), never
`Max_Iter_Exceeded`: the absolute-tolerance rule has priority over the iteration cap. -/
theorem checkTermination_absTol_priority (s : hiopAugLagrSolver A) (err_feas err_optim : ℚ)
    (iter_num : Int) (status : hiopSolveStatus)
    (hf : err_feas ≤ s.eps_tol) (ho : err_optim ≤ s.eps_tol) :
    (checkTermination s err_feas err_optim iter_num status).1 = true ∧
    (checkTermination s err_feas err_optim iter_num status).2.1 = hiopSolveStatus.Solve_Success ∧
    (checkTermination s err_feas err_optim iter_num status).2.1 ≠
      hiopSolveStatus.Max_Iter_Exceeded := by
  rw [checkTermination_of_absTol s err_feas err_optim iter_num status ⟨hf, ho⟩]
  exact ⟨rfl, rfl, by simp⟩

/-- Witness for C2: errors `0, 0` at `iter_num = 1000 = max_n_it` on the concrete solver. -/
theorem checkTermination_absTol_priority_witness :
    ((0 : ℚ) ≤ demoSolver.eps_tol ∧ (1000 : Int) ≥ demoSolver.max_n_it) ∧
    ((checkTermination demoSolver 0 0 1000 hiopSolveStatus.NlpSolve_Pending).1 = true ∧
     (checkTermination demoSolver 0 0 1000 hiopSolveStatus.NlpSolve_Pending).2.1 =
        hiopSolveStatus.Solve_Success ∧
     (checkTermination demoSolver 0 0 1000 hiopSolveStatus.NlpSolve_Pending).2.1 ≠
        hiopSolveStatus.Max_Iter_Exceeded) :=
  ⟨⟨by rw [demoSolver_eps_tol]; norm_num, by rw [demoSolver_max_n_it]⟩,
   checkTermination_absTol_priority demoSolver 0 0 1000 hiopSolveStatus.NlpSolve_Pending
     (by rw [demoSolver_eps_tol]; norm_num) (by rw [demoSolver_eps_tol]; norm_num)⟩

/-! ## The multiplier update -/

theorem updateLambdaLoop_succ (p : List ℚ) (rho : ℚ) (k : Nat) (lam : List ℚ) :
    updateLambdaLoop p rho (k + 1) lam =
      (updateLambdaLoop p rho k lam).set k
        ((updateLambdaLoop p rho k lam).getD k 0 + p.getD k 0 / rho) := by
  simp [updateLambdaLoop, List.range_succ, List.foldl_append]

theorem updateLambdaLoop_length (p : List ℚ) (rho : ℚ) (k : Nat) (lam : List ℚ) :
    (updateLambdaLoop p rho k lam).length = lam.length := by
  induction k with
  | zero => simp [updateLambdaLoop]
  | succ k ih => rw [updateLambdaLoop_succ, List.length_set, ih]

/-- After `k` passes of the loop the first `k` components (those that exist) are updated and
the others are untouched. -/
theorem updateLambdaLoop_getD (p : List ℚ) (rho : ℚ) (k : Nat) (lam : List ℚ) (i : Nat) :
    (updateLambdaLoop p rho k lam).getD i 0 =
      if i < k ∧ i < lam.length then lam.getD i 0 + p.getD i 0 / rho else lam.getD i 0 := by
  induction k with
  | zero => simp [updateLambdaLoop]
  | succ k ih =>
    rw [updateLambdaLoop_succ]
    have hlen := updateLambdaLoop_length p rho k lam
    by_cases hik : i = k
    · subst hik
      by_cases hil : i < lam.length
      · rw [List.getD_eq_getElem?_getD, List.getElem?_set_self (by rw [hlen]; exact hil)]
        have h1 : ¬ (i < i ∧ i < lam.length) := fun h => absurd h.1 (lt_irrefl i)
        rw [ih, if_neg h1]
        simp [hil]
      · have h2 : lam.length ≤ i := not_lt.mp hil
        rw [List.getD_eq_getElem?_getD, List.getElem?_eq_none (by simp [hlen, h2])]
        simp [hil, List.getD_eq_getElem?_getD, List.getElem?_eq_none h2]
    · rw [List.getD_eq_getElem?_getD, List.getElem?_set_ne (Ne.symm hik),
        ← List.getD_eq_getElem?_getD, ih]
      have h3 : i < k + 1 ↔ i < k := by omega
      simp only [h3]

theorem updateLambdaLoop_eq_zipWith (p : List ℚ) (rho : ℚ) (lam : List ℚ)
    (hp : p.length = lam.length) :
    updateLambdaLoop p rho lam.length lam = List.zipWith (fun l q => l + q / rho) lam p := by
  apply List.ext_getElem
  · simp [updateLambdaLoop_length, hp]
  · intro i h1 h2
    have hi : i < lam.length := by rw [updateLambdaLoop_length] at h1; exact h1
    have hip : i < p.length := by rw [hp]; exact hi
    have h := updateLambdaLoop_getD p rho lam.length lam i
    rw [if_pos ⟨hi, hi⟩, List.getD_eq_getElem _ _ h1, List.getD_eq_getElem _ _ hi,
      List.getD_eq_getElem _ _ hip] at h
    rw [h, List.getElem_zipWith]

/-! ## C3 -/

/-- C3: for multiplier and penalty-function vectors of length `m` and `rho ≠ 0`, `updateLambda`
replaces `lambda` by the vector with components `lambda_i + p_i / rho` for all `i < m`,
keeps the length `m`, `rho` and the penalty-function vector, and passes the new `lambda`
to the adapter through `set_lambda`. -/
theorem updateLambda_spec (c : Collaborators A) (s : hiopAugLagrSolver A)
    (hlam : s._lam_curr.length = s.m) (hp : s.residual.penaltyFcn.length = s.m)
    (hrho : s._rho_curr ≠ 0) :
    (updateLambda c s)._lam_curr =
      List.zipWith (fun l q => l + q / s._rho_curr) s._lam_curr s.residual.penaltyFcn ∧
    (∀ i, i < s.m → (updateLambda c s)._lam_curr.getD i 0 =
      s._lam_curr.getD i 0 + s.residual.penaltyFcn.getD i 0 / s._rho_curr) ∧
    (updateLambda c s)._lam_curr.length = s.m ∧
    (updateLambda c s).m = s.m ∧
    (updateLambda c s)._rho_curr = s._rho_curr ∧
    (updateLambda c s).residual = s.residual ∧
    (updateLambda c s).nlp = c.set_lambda s.nlp (updateLambda c s)._lam_curr := by
  have _ := hrho
  refine ⟨?_, ?_, ?_, rfl, rfl, rfl, rfl⟩
  · show updateLambdaLoop s.residual.penaltyFcn s._rho_curr s.m s._lam_curr = _
    rw [← hlam]
    exact updateLambdaLoop_eq_zipWith _ _ _ (by rw [hp, hlam])
  · intro i hi
    show (updateLambdaLoop s.residual.penaltyFcn s._rho_curr s.m s._lam_curr).getD i 0 = _
    rw [updateLambdaLoop_getD, if_pos ⟨hi, by rw [hlam]; exact hi⟩]
  · show (updateLambdaLoop s.residual.penaltyFcn s._rho_curr s.m s._lam_curr).length = _
    rw [updateLambdaLoop_length, hlam]

/-- Witness for C3: `p = [2, -1]`, `rho = 100`, `lambda = [1, 1]` give `lambda = [1.02, 0.99]`,
and that vector is the one handed to the adapter. -/
theorem updateLambda_spec_witness :
    (lambdaDemo._lam_curr = [1, 1] ∧ lambdaDemo.residual.penaltyFcn = [2, -1] ∧
      lambdaDemo._rho_curr = 100 ∧ lambdaDemo.m = 2) ∧
    (updateLambda (demoCollab 1 100) lambdaDemo)._lam_curr = [102 / 100, 99 / 100] ∧
    (updateLambda (demoCollab 1 100) lambdaDemo).nlp.lambda = [102 / 100, 99 / 100] := by
  have h := updateLambda_spec (demoCollab 1 100) lambdaDemo (by simp [lambdaDemo])
    (by simp [lambdaDemo]) (by simp [lambdaDemo])
  have hv : (updateLambda (demoCollab 1 100) lambdaDemo)._lam_curr = [102 / 100, 99 / 100] := by
    rw [h.1]
    norm_num [lambdaDemo]
  refine ⟨⟨by simp [lambdaDemo], by simp [lambdaDemo], by simp [lambdaDemo],
    by simp [lambdaDemo]⟩, hv, ?_⟩
  rw [h.2.2.2.2.2.2, hv]
  simp [demoCollab]

/-! ## The penalty update -/

theorem updateRho_rho (c : Collaborators A) (s : hiopAugLagrSolver A) :
    (updateRho c s)._rho_curr = max (10 * s._rho_curr) s.rho_max := rfl

theorem updateRho_rho_max (c : Collaborators A) (s : hiopAugLagrSolver A) :
    (updateRho c s).rho_max = s.rho_max := rfl

theorem rhoAfter_succ (c : Collaborators A) (k : Nat) (s : hiopAugLagrSolver A) :
    rhoAfter c (k + 1) s = updateRho c (rhoAfter c k s) := by
  simp [rhoAfter, Function.iterate_succ_apply']

theorem rhoAfter_rho_max (c : Collaborators A) (k : Nat) (s : hiopAugLagrSolver A) :
    (rhoAfter c k s).rho_max = s.rho_max := by
  induction k with
  | zero => rfl
  | succ k ih => rw [rhoAfter_succ, updateRho_rho_max, ih]

/-- Once `rho` has reached `rho_max > 0`, every further call multiplies it by ten. -/
theorem rhoAfter_of_ge (c : Collaborators A) (k : Nat) (s : hiopAugLagrSolver A)
    (hpos : 0 ≤ s.rho_max) (hge : s.rho_max ≤ s._rho_curr) :
    (rhoAfter c k s)._rho_curr = 10 ^ k * s._rho_curr := by
  induction k with
  | zero => simp [rhoAfter]
  | succ k ih =>
    rw [rhoAfter_succ, updateRho_rho, rhoAfter_rho_max, ih]
    have h1 : s._rho_curr ≤ 10 ^ k * s._rho_curr := by
      have h10 : (1 : ℚ) ≤ 10 ^ k := one_le_pow₀ (by norm_num)
      nlinarith [le_trans hpos hge]
    have h2 : s.rho_max ≤ 10 * (10 ^ k * s._rho_curr) := by
      nlinarith [le_trans hpos hge]
    rw [max_eq_left h2]
    ring

/-- From a non-negative value the penalty parameter never decreases, however many calls. -/
theorem rhoAfter_mono (c : Collaborators A) (k : Nat) (s : hiopAugLagrSolver A)
    (h0 : 0 ≤ s._rho_curr) : s._rho_curr ≤ (rhoAfter c k s)._rho_curr := by
  induction k with
  | zero => exact le_refl _
  | succ k ih =>
    rw [rhoAfter_succ, updateRho_rho]
    have : (rhoAfter c k s)._rho_curr ≤ 10 * (rhoAfter c k s)._rho_curr := by linarith
    exact le_trans ih (le_trans this (le_max_left _ _))

theorem runStart_rho (c : Collaborators A) (s : hiopAugLagrSolver A) :
    (runStart c s)._rho_curr = 100 ∧ (runStart c s).rho_max = s.rho_max := ⟨rfl, rfl⟩

/-- The frame of `checkTermination`: of the solver, only `_n_accep_iters` can change. -/
theorem checkTermination_frame (s : hiopAugLagrSolver A) (err_feas err_optim : ℚ)
    (iter_num : Int) (status : hiopSolveStatus) :
    ∃ k : Int, (checkTermination s err_feas err_optim iter_num status).2.2 =
      { s with _n_accep_iters := k } := by
  unfold checkTermination
  dsimp only
  split_ifs <;> exact ⟨_, rfl⟩

theorem checkTermination_rho (s : hiopAugLagrSolver A) (err_feas err_optim : ℚ)
    (iter_num : Int) (status : hiopSolveStatus) :
    (checkTermination s err_feas err_optim iter_num status).2.2._rho_curr = s._rho_curr ∧
    (checkTermination s err_feas err_optim iter_num status).2.2.rho_max = s.rho_max := by
  obtain ⟨k, hk⟩ := checkTermination_frame s err_feas err_optim iter_num status
  rw [hk]
  exact ⟨rfl, rfl⟩

theorem runInit_rho (c : Collaborators A) (s : hiopAugLagrSolver A) :
    (runInit c s).1._rho_curr = 100 ∧ (runInit c s).1.rho_max = s.rho_max := by
  have h := checkTermination_rho (runStart c s) (runStart c s)._err_feas
    (runStart c s)._err_optim (runStart c s).iter_num (runStart c s)._solverStatus
  exact ⟨h.1, h.2⟩

theorem ctor_rho_max (c : Collaborators A) (nlp : A) : (ctor c nlp).rho_max = 10 ^ 7 := rfl

/-! ## C4 -/

/-- C4: the bound `rho ≤ rho_max` does not survive the second update. On the solver that the
constructor builds and `run` initialises (`rho = 100`, `rho_max = 10^7`), for any collaborators,
two calls of `updateRho` leave `rho = 10^8`, which is above `rho_max`. -/
theorem updateRho_twice_exceeds_rho_max (c : Collaborators A) (nlp : A) :
    (runInit c (ctor c nlp)).1._rho_curr = 100 ∧
    (runInit c (ctor c nlp)).1.rho_max = 10 ^ 7 ∧
    (rhoAfter c 2 (runInit c (ctor c nlp)).1)._rho_curr = 10 ^ 8 ∧
    ¬ ((rhoAfter c 2 (runInit c (ctor c nlp)).1)._rho_curr ≤
        (rhoAfter c 2 (runInit c (ctor c nlp)).1).rho_max) := by
  have h := runInit_rho c (ctor c nlp)
  rw [ctor_rho_max] at h
  have h2 : (rhoAfter c 2 (runInit c (ctor c nlp)).1)._rho_curr = 10 ^ 8 := by
    rw [rhoAfter_succ, rhoAfter_succ, updateRho_rho, updateRho_rho, updateRho_rho_max,
      rhoAfter_rho_max]
    simp only [rhoAfter, Function.iterate_zero, id_eq]
    rw [h.1, h.2]
    norm_num
  refine ⟨h.1, h.2, h2, ?_⟩
  rw [h2, rhoAfter_rho_max, h.2]
  norm_num

/-! ## C5 -/

/-- C5: `updateRho` never decreases the penalty parameter when the current value is
non-negative, or at most `rho_max`, or reachable from the value 100 that `run` installs by
calls of `updateRho`; and the new value is the one passed to the adapter's `set_rho`. -/
theorem updateRho_nondecreasing (c : Collaborators A) (s : hiopAugLagrSolver A)
    (h : 0 ≤ s._rho_curr ∨ s._rho_curr ≤ s.rho_max ∨
      ∃ (s0 : hiopAugLagrSolver A) (k : Nat), s0._rho_curr = 100 ∧
        (rhoAfter c k s0)._rho_curr = s._rho_curr) :
    s._rho_curr ≤ (updateRho c s)._rho_curr ∧
    (updateRho c s).nlp = c.set_rho s.nlp (updateRho c s)._rho_curr := by
  refine ⟨?_, rfl⟩
  rw [updateRho_rho]
  have hnn : 0 ≤ s._rho_curr → s._rho_curr ≤ max (10 * s._rho_curr) s.rho_max := by
    intro h0
    have : s._rho_curr ≤ 10 * s._rho_curr := by linarith
    exact le_trans this (le_max_left _ _)
  rcases h with h0 | hmax | ⟨s0, k, hs0, hk⟩
  · exact hnn h0
  · exact le_trans hmax (le_max_right _ _)
  · apply hnn
    rw [← hk]
    have h100 : (0 : ℚ) ≤ s0._rho_curr := by rw [hs0]; norm_num
    exact le_trans h100 (rhoAfter_mono c k s0 h100)

/-- Witness for C5: the first update in a run of the concrete problem, from `rho = 100`. -/
theorem updateRho_nondecreasing_witness :
    (0 : ℚ) ≤ (runInit (demoCollab 1 100) demoSolver).1._rho_curr ∧
    ((runInit (demoCollab 1 100) demoSolver).1._rho_curr ≤
        (updateRho (demoCollab 1 100) (runInit (demoCollab 1 100) demoSolver).1)._rho_curr ∧
      (updateRho (demoCollab 1 100) (runInit (demoCollab 1 100) demoSolver).1).nlp =
        (demoCollab 1 100).set_rho (runInit (demoCollab 1 100) demoSolver).1.nlp
          (updateRho (demoCollab 1 100) (runInit (demoCollab 1 100) demoSolver).1)._rho_curr) :=
  ⟨by rw [(runInit_rho _ _).1]; norm_num,
   updateRho_nondecreasing (demoCollab 1 100) (runInit (demoCollab 1 100) demoSolver).1
     (Or.inl (by rw [(runInit_rho _ _).1]; norm_num))⟩

/-! ## C10 -/

theorem updateRho_ge_rho_max (c : Collaborators A) (s : hiopAugLagrSolver A) :
    s.rho_max ≤ (updateRho c s)._rho_curr := le_max_right _ _

/-- C10 fails on the code: on the concrete problem, after `run` has installed `rho = 100`
(with `rho_max = 10^7`), the first call of `updateRho` leaves `rho = 10^7 = rho_max`, but the
second call leaves `rho = 10^8`, above `rho_max`: it is not true that every call from the
first on leaves `rho = rho_max`. -/
theorem updateRho_does_not_stay_at_rho_max :
    (runInit (demoCollab 1 100) demoSolver).1._rho_curr = 100 ∧
    (runInit (demoCollab 1 100) demoSolver).1.rho_max = 10 ^ 7 ∧
    (rhoAfter (demoCollab 1 100) 1 (runInit (demoCollab 1 100) demoSolver).1)._rho_curr = 10 ^ 7 ∧
    (rhoAfter (demoCollab 1 100) 2 (runInit (demoCollab 1 100) demoSolver).1)._rho_curr = 10 ^ 8 ∧
    (rhoAfter (demoCollab 1 100) 2 (runInit (demoCollab 1 100) demoSolver).1)._rho_curr ≠
      (rhoAfter (demoCollab 1 100) 2 (runInit (demoCollab 1 100) demoSolver).1).rho_max ∧
    ¬ (∀ k : Nat, 1 ≤ k →
        (rhoAfter (demoCollab 1 100) k (runInit (demoCollab 1 100) demoSolver).1)._rho_curr =
          (runInit (demoCollab 1 100) demoSolver).1.rho_max) := by
  have h := runInit_rho (demoCollab 1 100) demoSolver
  rw [demoSolver_rho.2] at h
  have h1 : (rhoAfter (demoCollab 1 100) 1
      (runInit (demoCollab 1 100) demoSolver).1)._rho_curr = 10 ^ 7 := by
    rw [rhoAfter_succ, updateRho_rho, rhoAfter_rho_max]
    simp only [rhoAfter, Function.iterate_zero, id_eq]
    rw [h.1, h.2]
    norm_num
  have h2 : (rhoAfter (demoCollab 1 100) 2
      (runInit (demoCollab 1 100) demoSolver).1)._rho_curr = 10 ^ 8 := by
    rw [rhoAfter_succ, rhoAfter_succ, updateRho_rho, updateRho_rho, updateRho_rho_max,
      rhoAfter_rho_max]
    simp only [rhoAfter, Function.iterate_zero, id_eq]
    rw [h.1, h.2]
    norm_num
  refine ⟨h.1, h.2, h1, h2, ?_, ?_⟩
  · rw [h2, rhoAfter_rho_max, h.2]
    norm_num
  · intro hall
    have h3 := hall 2 (by norm_num)
    rw [h2, h.2] at h3
    norm_num at h3

/-- On the solver that the constructor builds and `run` initialises (`rho = 100`,
`rho_max = 10^7`), for any collaborators, call number `k + 1` of `updateRho` leaves
`rho = 10^k * rho_max`: `rho_max` after the first call, ten times more after each later one. -/
theorem rhoAfter_from_run (c : Collaborators A) (nlp : A) (k : Nat) :
    (rhoAfter c (k + 1) (runInit c (ctor c nlp)).1)._rho_curr =
      10 ^ k * (runInit c (ctor c nlp)).1.rho_max := by
  have h := runInit_rho c (ctor c nlp)
  rw [ctor_rho_max] at h
  induction k with
  | zero =>
    rw [rhoAfter_succ, updateRho_rho, rhoAfter_rho_max]
    simp only [rhoAfter, Function.iterate_zero, id_eq]
    rw [h.1, h.2]
    norm_num
  | succ k ih =>
    rw [rhoAfter_succ, updateRho_rho, rhoAfter_rho_max, ih, h.2]
    have h10 : (1 : ℚ) ≤ 10 ^ k := one_le_pow₀ (by norm_num)
    rw [max_eq_left (by nlinarith)]
    ring

/-! ## C6 -/

/-- C6: with `eps_rtol > 0`, when the absolute-tolerance rule does not fire and
`iter_num < max_n_it`, `checkTermination` returns true with status `Solve_Success_RelTol`
if and only if `err_optim ≤ eps_rtol * _err_optim0` and `err_feas ≤ eps_rtol * _err_feas0`. -/
theorem checkTermination_relTol_iff (s : hiopAugLagrSolver A) (err_feas err_optim : ℚ)
    (iter_num : Int) (status : hiopSolveStatus)
    (hr : s.eps_rtol > 0)
    (habs : ¬ (err_feas ≤ s.eps_tol ∧ err_optim ≤ s.eps_tol))
    (hit : iter_num < s.max_n_it) :
    ((checkTermination s err_feas err_optim iter_num status).1 = true ∧
      (checkTermination s err_feas err_optim iter_num status).2.1 =
        hiopSolveStatus.Solve_Success_RelTol) ↔
    (err_optim ≤ s.eps_rtol * s._err_optim0 ∧ err_feas ≤ s.eps_rtol * s._err_feas0) := by
  have hit2 : ¬ iter_num ≥ s.max_n_it := not_le.mpr hit
  constructor
  · intro h
    by_contra hrel
    have hrel2 : ¬ (s.eps_rtol > 0 ∧
        (err_optim ≤ s.eps_rtol * s._err_optim0 ∧ err_feas ≤ s.eps_rtol * s._err_feas0)) :=
      fun hh => hrel hh.2
    rw [checkTermination_of_noEarlier s err_feas err_optim iter_num status habs hit2 hrel2] at h
    split_ifs at h <;> simp at h
  · intro hrel
    rw [checkTermination_of_relTol s err_feas err_optim iter_num status habs hit2 ⟨hr, hrel⟩]
    exact ⟨rfl, rfl⟩

theorem relTolDemo_fields :
    relTolDemo.eps_tol = -1 ∧ relTolDemo.eps_rtol = 1 / 100 ∧ relTolDemo._err_feas0 = 10 ∧
    relTolDemo._err_optim0 = 10 ∧ relTolDemo.max_n_it = 1000 := by
  refine ⟨rfl, rfl, rfl, rfl, ?_⟩
  simp [relTolDemo, ctor, resetSolverStatus, reInitializeNlpObjects, reloadOptions, demoCollab]

/-- Witness for C6: `eps_tol` unreachable, `eps_rtol = 1e-2`, initial errors `10`: errors
`0.1, 0.1` give relative-tolerance success, errors `0.11, 0.1` do not. -/
theorem checkTermination_relTol_iff_witness :
    (relTolDemo.eps_rtol > 0 ∧ (1 : Int) < relTolDemo.max_n_it) ∧
    ((checkTermination relTolDemo (1 / 10) (1 / 10) 1 hiopSolveStatus.NlpSolve_Pending).1 = true ∧
      (checkTermination relTolDemo (1 / 10) (1 / 10) 1 hiopSolveStatus.NlpSolve_Pending).2.1 =
        hiopSolveStatus.Solve_Success_RelTol) ∧
    ¬ ((checkTermination relTolDemo (11 / 100) (1 / 10) 1 hiopSolveStatus.NlpSolve_Pending).1 = true ∧
      (checkTermination relTolDemo (11 / 100) (1 / 10) 1 hiopSolveStatus.NlpSolve_Pending).2.1 =
        hiopSolveStatus.Solve_Success_RelTol) := by
  obtain ⟨h1, h2, h3, h4, h5⟩ := relTolDemo_fields
  have hr : relTolDemo.eps_rtol > 0 := by rw [h2]; norm_num
  have hit : (1 : Int) < relTolDemo.max_n_it := by rw [h5]; norm_num
  refine ⟨⟨hr, hit⟩, ?_, ?_⟩
  · exact (checkTermination_relTol_iff relTolDemo (1 / 10) (1 / 10) 1
      hiopSolveStatus.NlpSolve_Pending hr (by rw [h1]; norm_num) hit).mpr
      (by rw [h2, h3, h4]; norm_num)
  · rw [checkTermination_relTol_iff relTolDemo (11 / 100) (1 / 10) 1
      hiopSolveStatus.NlpSolve_Pending hr (by rw [h1]; norm_num) hit]
    rw [h2, h3, h4]
    norm_num

/-! ## C7 -/

/-- C7: when the absolute-tolerance rule does not fire and `iter_num ≥ max_n_it`,
`checkTermination` returns true with status `Max_Iter_Exceeded`, whatever the relative-tolerance
and acceptable-level conditions are, and leaves `_n_accep_iters` (indeed the whole solver)
unchanged. -/
theorem checkTermination_maxIter (s : hiopAugLagrSolver A) (err_feas err_optim : ℚ)
    (iter_num : Int) (status : hiopSolveStatus)
    (habs : ¬ (err_feas ≤ s.eps_tol ∧ err_optim ≤ s.eps_tol))
    (hit : iter_num ≥ s.max_n_it) :
    (checkTermination s err_feas err_optim iter_num status).1 = true ∧
    (checkTermination s err_feas err_optim iter_num status).2.1 =
      hiopSolveStatus.Max_Iter_Exceeded ∧
    (checkTermination s err_feas err_optim iter_num status).2.2._n_accep_iters =
      s._n_accep_iters ∧
    (checkTermination s err_feas err_optim iter_num status).2.2 = s := by
  rw [checkTermination_of_maxIter s err_feas err_optim iter_num status habs hit]
  exact ⟨rfl, rfl, rfl, rfl⟩

theorem maxIterDemo_fields :
    maxIterDemo.eps_rtol = 1 / 100 ∧ maxIterDemo._err_feas0 = 10 ∧
    maxIterDemo._err_optim0 = 10 ∧ maxIterDemo.max_n_it = 3 ∧ maxIterDemo.accep_n_it = 1 ∧
    maxIterDemo._n_accep_iters = 0 ∧ maxIterDemo.eps_tol = 1 / 10 ^ 6 ∧
    maxIterDemo.eps_tol_accep = 1 / 10 ^ 4 := by
  refine ⟨rfl, rfl, rfl, rfl, rfl, rfl, ?_, ?_⟩ <;>
  simp [maxIterDemo, ctor, resetSolverStatus, reInitializeNlpObjects, reloadOptions, demoCollab]

/-- Witness for C7: errors `1e-5` at `iter_num = 3 = max_n_it`, where the relative-tolerance
condition holds and the acceptable-level rule would fire as well. -/
theorem checkTermination_maxIter_witness :
    (¬ ((1 : ℚ) / 10 ^ 5 ≤ maxIterDemo.eps_tol ∧ (1 : ℚ) / 10 ^ 5 ≤ maxIterDemo.eps_tol) ∧
      (3 : Int) ≥ maxIterDemo.max_n_it ∧
      relTolHolds maxIterDemo ⟨1 / 10 ^ 5, 1 / 10 ^ 5, 3⟩ ∧
      passesAccep maxIterDemo ⟨1 / 10 ^ 5, 1 / 10 ^ 5, 3⟩ ∧
      maxIterDemo._n_accep_iters + 1 ≥ maxIterDemo.accep_n_it) ∧
    ((checkTermination maxIterDemo (1 / 10 ^ 5) (1 / 10 ^ 5) 3
        hiopSolveStatus.NlpSolve_Pending).1 = true ∧
      (checkTermination maxIterDemo (1 / 10 ^ 5) (1 / 10 ^ 5) 3
        hiopSolveStatus.NlpSolve_Pending).2.1 = hiopSolveStatus.Max_Iter_Exceeded ∧
      (checkTermination maxIterDemo (1 / 10 ^ 5) (1 / 10 ^ 5) 3
        hiopSolveStatus.NlpSolve_Pending).2.2._n_accep_iters = maxIterDemo._n_accep_iters ∧
      (checkTermination maxIterDemo (1 / 10 ^ 5) (1 / 10 ^ 5) 3
        hiopSolveStatus.NlpSolve_Pending).2.2 = maxIterDemo) := by
  obtain ⟨h1, h2, h3, h4, h5, h6, h7, h8⟩ := maxIterDemo_fields
  have habs : ¬ ((1 : ℚ) / 10 ^ 5 ≤ maxIterDemo.eps_tol ∧
      (1 : ℚ) / 10 ^ 5 ≤ maxIterDemo.eps_tol) := by rw [h7]; norm_num
  have hit : (3 : Int) ≥ maxIterDemo.max_n_it := by rw [h4]
  refine ⟨⟨habs, hit, ?_, ?_, ?_⟩, checkTermination_maxIter maxIterDemo (1 / 10 ^ 5) (1 / 10 ^ 5) 3
    hiopSolveStatus.NlpSolve_Pending habs hit⟩
  · unfold relTolHolds
    rw [h1, h2, h3]
    norm_num
  · unfold passesAccep
    rw [h8]
    norm_num
  · rw [h5, h6]
    norm_num

/-! ## Sequences of termination checks: the acceptable-level counter -/

theorem accepRun_nil (s : hiopAugLagrSolver A) : accepRun s [] = 0 := rfl

theorem accepRun_concat (s : hiopAugLagrSolver A) (xs : List TermArgs) (x : TermArgs) :
    accepRun s (xs ++ [x]) = if passesAccep s x then accepRun s xs + 1 else 0 := by
  unfold accepRun
  rw [List.reverse_append, List.reverse_singleton, List.singleton_append, List.takeWhile_cons]
  by_cases h : passesAccep s x
  · simp [h]
  · simp [h]

theorem accepRun_of_all_pass (s : hiopAugLagrSolver A) (xs : List TermArgs)
    (h : ∀ y ∈ xs, passesAccep s y) : accepRun s xs = xs.length := by
  unfold accepRun
  have : xs.reverse.takeWhile (fun x => decide (passesAccep s x)) = xs.reverse := by
    rw [List.takeWhile_eq_self_iff]
    intro y hy
    simpa using h y (List.mem_reverse.mp hy)
  rw [this, List.length_reverse]

theorem accepRun_after_fail (s : hiopAugLagrSolver A) (xs ys : List TermArgs) (f : TermArgs)
    (hf : ¬ passesAccep s f) (h : ∀ y ∈ ys, passesAccep s y) :
    accepRun s (xs ++ f :: ys) = ys.length := by
  unfold accepRun
  rw [List.reverse_append, List.reverse_cons, List.append_assoc, List.singleton_append,
    List.takeWhile_append_of_pos (by
      intro y hy
      simpa using h y (List.mem_reverse.mp hy)),
    List.takeWhile_cons_of_neg (by simpa using hf)]
  simp

/-- The run of passes at the end of a sequence has length at least `n` exactly when the
sequence has at least `n` calls and its last `n` calls all pass. -/
theorem le_accepRun_iff (s : hiopAugLagrSolver A) (xs : List TermArgs) (n : Nat) :
    n ≤ accepRun s xs ↔
      (n ≤ xs.length ∧ ∀ y ∈ xs.reverse.take n, passesAccep s y) := by
  unfold accepRun
  rw [← List.length_reverse xs]
  generalize xs.reverse = l
  induction l generalizing n with
  | nil => simp
  | cons a l ih =>
    cases n with
    | zero => simp
    | succ n =>
      by_cases ha : passesAccep s a
      · rw [List.takeWhile_cons_of_pos (by simpa using ha)]
        simp only [List.length_cons, Nat.add_le_add_iff_right, List.take_succ_cons,
          List.mem_cons, forall_eq_or_imp]
        rw [ih n]
        tauto
      · rw [List.takeWhile_cons_of_neg (by simpa using ha)]
        simp only [List.length_nil, List.length_cons, List.take_succ_cons, List.mem_cons,
          forall_eq_or_imp]
        constructor
        · intro h
          omega
        · intro h
          exact absurd h.2.1 ha

theorem afterCalls_nil (p : hiopSolveStatus × hiopAugLagrSolver A) : afterCalls p [] = p := rfl

theorem afterCalls_concat (p : hiopSolveStatus × hiopAugLagrSolver A) (xs : List TermArgs)
    (x : TermArgs) : afterCalls p (xs ++ [x]) = (callCheck (afterCalls p xs) x).2 := by
  simp [afterCalls, List.foldl_append]

/-- One call on a solver whose counter equals `k` and on which none of the earlier rules
fires: the new counter, and the result in terms of the new counter. -/
theorem callCheck_of_noEarlier (st : hiopSolveStatus) (s : hiopAugLagrSolver A) (x : TermArgs)
    (hne : noEarlierRule s x) :
    (callCheck (st, s) x).2.2 =
      { s with _n_accep_iters := if passesAccep s x then s._n_accep_iters + 1 else 0 } ∧
    (((callCheck (st, s) x).1 = true ∧
        (callCheck (st, s) x).2.1 = hiopSolveStatus.Solve_Acceptable_Level) ↔
      s.accep_n_it ≤ (if passesAccep s x then s._n_accep_iters + 1 else 0)) ∧
    ((callCheck (st, s) x).1 = true ↔
      s.accep_n_it ≤ (if passesAccep s x then s._n_accep_iters + 1 else 0)) := by
  obtain ⟨habs, hit, hrel⟩ := hne
  unfold callCheck
  rw [checkTermination_of_noEarlier s x.err_feas x.err_optim x.iter_num st habs
    (not_le.mpr hit) hrel]
  unfold passesAccep
  split_ifs with h1 h2 h2
  · exact ⟨rfl, by simpa using h2, by simpa using h2⟩
  · exact ⟨rfl, by simpa using h2, by simpa using h2⟩
  · exact ⟨rfl, by simpa using h2, by simpa using h2⟩
  · exact ⟨rfl, by simpa using h2, by simpa using h2⟩

/-- After a sequence of calls on which none of the earlier rules fires, started with the counter
at 0, the solver is the initial one with the counter set to the length of the final run of
passes. -/
theorem afterCalls_solver (st : hiopSolveStatus) (s : hiopAugLagrSolver A)
    (xs : List TermArgs) (h0 : s._n_accep_iters = 0)
    (hne : ∀ y ∈ xs, noEarlierRule s y) :
    (afterCalls (st, s) xs).2 = { s with _n_accep_iters := (accepRun s xs : Int) } := by
  induction xs using List.reverseRecOn with
  | nil =>
    rw [afterCalls_nil, accepRun_nil]
    cases s
    simp only at h0
    subst h0
    rfl
  | append_singleton xs x ih =>
    have ih2 := ih (fun y hy => hne y (List.mem_append_left _ hy))
    have hx : noEarlierRule s x := hne x (by simp)
    rw [afterCalls_concat]
    have hpair : afterCalls (st, s) xs =
        ((afterCalls (st, s) xs).1, { s with _n_accep_iters := (accepRun s xs : Int) }) := by
      rw [← ih2]
    rw [hpair]
    have hx2 : noEarlierRule { s with _n_accep_iters := (accepRun s xs : Int) } x := hx
    rw [(callCheck_of_noEarlier _ _ x hx2).1, accepRun_concat]
    by_cases hp : passesAccep s x
    · have hp2 : passesAccep { s with _n_accep_iters := (accepRun s xs : Int) } x := hp
      simp [hp, hp2]
    · have hp2 : ¬ passesAccep { s with _n_accep_iters := (accepRun s xs : Int) } x := hp
      simp [hp, hp2]

/-- The result of the call `x` made after the calls `xs`, under the same conditions: it
returns true exactly when the final run of passes has reached `accep_n_it`, and then the
status is `Solve_Acceptable_Level`. -/
theorem callCheck_after (st : hiopSolveStatus) (s : hiopAugLagrSolver A)
    (xs : List TermArgs) (x : TermArgs) (h0 : s._n_accep_iters = 0)
    (hne : ∀ y ∈ xs ++ [x], noEarlierRule s y) :
    (callCheck (afterCalls (st, s) xs) x).2.2._n_accep_iters = (accepRun s (xs ++ [x]) : Int) ∧
    (((callCheck (afterCalls (st, s) xs) x).1 = true ∧
        (callCheck (afterCalls (st, s) xs) x).2.1 = hiopSolveStatus.Solve_Acceptable_Level) ↔
      s.accep_n_it ≤ (accepRun s (xs ++ [x]) : Int)) ∧
    ((callCheck (afterCalls (st, s) xs) x).1 = true ↔
      s.accep_n_it ≤ (accepRun s (xs ++ [x]) : Int)) := by
  have h1 := afterCalls_solver st s (xs ++ [x]) h0 hne
  rw [afterCalls_concat] at h1
  have h2 := afterCalls_solver st s xs h0 (fun y hy => hne y (List.mem_append_left _ hy))
  have hx : noEarlierRule s x := hne x (by simp)
  have hpair : afterCalls (st, s) xs =
      ((afterCalls (st, s) xs).1, { s with _n_accep_iters := (accepRun s xs : Int) }) := by
    rw [← h2]
  have hx2 : noEarlierRule { s with _n_accep_iters := (accepRun s xs : Int) } x := hx
  have h3 := callCheck_of_noEarlier (afterCalls (st, s) xs).1 _ x hx2
  rw [← hpair] at h3
  have hcnt : (if passesAccep { s with _n_accep_iters := (accepRun s xs : Int) } x
      then ({ s with _n_accep_iters := (accepRun s xs : Int) } : hiopAugLagrSolver A)._n_accep_iters + 1
      else 0) = (accepRun s (xs ++ [x]) : Int) := by
    rw [accepRun_concat]
    by_cases hp : passesAccep s x
    · have hp2 : passesAccep { s with _n_accep_iters := (accepRun s xs : Int) } x := hp
      simp [hp, hp2]
    · have hp2 : ¬ passesAccep { s with _n_accep_iters := (accepRun s xs : Int) } x := hp
      simp [hp, hp2]
  rw [hcnt] at h3
  refine ⟨?_, h3.2.1, h3.2.2⟩
  rw [h1]

/-! ## C8 -/

/-- C8: in a sequence of `checkTermination` calls that starts with `_n_accep_iters = 0`, with
`accep_n_it ≥ 1`, and in which no earlier rule (absolute tolerance, iteration cap, relative
tolerance) fires, after each call the counter equals the length of the current run of
consecutive calls with both errors within `eps_tol_accep` (a failing call resets it to 0), and
the call returns true with `Solve_Acceptable_Level` if and only if that call and the
`accep_n_it - 1` calls immediately before it all had both errors within `eps_tol_accep`. -/
theorem accep_counter_tracks_run (s : hiopAugLagrSolver A) (st : hiopSolveStatus)
    (xs : List TermArgs) (x : TermArgs)
    (h0 : s._n_accep_iters = 0) (hacc : 1 ≤ s.accep_n_it)
    (hne : ∀ y ∈ xs ++ [x], noEarlierRule s y) :
    (callCheck (afterCalls (st, s) xs) x).2.2._n_accep_iters = (accepRun s (xs ++ [x]) : Int) ∧
    (¬ passesAccep s x → (callCheck (afterCalls (st, s) xs) x).2.2._n_accep_iters = 0) ∧
    (((callCheck (afterCalls (st, s) xs) x).1 = true ∧
        (callCheck (afterCalls (st, s) xs) x).2.1 = hiopSolveStatus.Solve_Acceptable_Level) ↔
      (s.accep_n_it.toNat ≤ (xs ++ [x]).length ∧
        ∀ y ∈ (xs ++ [x]).reverse.take s.accep_n_it.toNat, passesAccep s y)) := by
  have _ := hacc
  obtain ⟨h1, h2, _⟩ := callCheck_after st s xs x h0 hne
  refine ⟨h1, ?_, ?_⟩
  · intro hf
    rw [h1, accepRun_concat, if_neg hf]
    rfl
  · rw [h2, ← le_accepRun_iff, Int.toNat_le]

theorem demoSolver_accepPass :
    noEarlierRule demoSolver accepPass ∧ passesAccep demoSolver accepPass := by
  unfold noEarlierRule absTolFires relTolHolds passesAccep
  rw [demoSolver_eps_tol, demoSolver_max_n_it, demoSolver_eps_rtol, demoSolver_err0.1,
    demoSolver_err0.2, demoSolver_eps_tol_accep]
  norm_num [accepPass]

theorem demoSolver_accepFail :
    noEarlierRule demoSolver accepFail ∧ ¬ passesAccep demoSolver accepFail := by
  unfold noEarlierRule absTolFires relTolHolds passesAccep
  rw [demoSolver_eps_tol, demoSolver_max_n_it, demoSolver_eps_rtol, demoSolver_err0.1,
    demoSolver_err0.2, demoSolver_eps_tol_accep]
  norm_num [accepFail]

/-- Witness for C8: on the concrete solver (`accep_n_it = 5`), the fifth of five passing calls
leaves the counter at 5 and returns true with `Solve_Acceptable_Level`. -/
theorem accep_counter_tracks_run_witness :
    (demoSolver._n_accep_iters = 0 ∧ 1 ≤ demoSolver.accep_n_it ∧
      ∀ y ∈ List.replicate 4 accepPass ++ [accepPass], noEarlierRule demoSolver y) ∧
    (callCheck (afterCalls (hiopSolveStatus.NlpSolve_Pending, demoSolver)
      (List.replicate 4 accepPass)) accepPass).2.2._n_accep_iters = 5 ∧
    ((callCheck (afterCalls (hiopSolveStatus.NlpSolve_Pending, demoSolver)
      (List.replicate 4 accepPass)) accepPass).1 = true ∧
     (callCheck (afterCalls (hiopSolveStatus.NlpSolve_Pending, demoSolver)
      (List.replicate 4 accepPass)) accepPass).2.1 = hiopSolveStatus.Solve_Acceptable_Level) := by
  have hacc : (1 : Int) ≤ demoSolver.accep_n_it := by rw [demoSolver_accep_n_it]; norm_num
  have hne : ∀ y ∈ List.replicate 4 accepPass ++ [accepPass], noEarlierRule demoSolver y := by
    intro y hy
    have : y = accepPass := by simpa using hy
    rw [this]
    exact demoSolver_accepPass.1
  have hpass : ∀ y ∈ List.replicate 4 accepPass ++ [accepPass], passesAccep demoSolver y := by
    intro y hy
    have : y = accepPass := by simpa using hy
    rw [this]
    exact demoSolver_accepPass.2
  have h := accep_counter_tracks_run demoSolver hiopSolveStatus.NlpSolve_Pending
    (List.replicate 4 accepPass) accepPass demoSolver_n_accep_iters hacc hne
  refine ⟨⟨demoSolver_n_accep_iters, hacc, hne⟩, ?_, ?_⟩
  · rw [h.1, accepRun_of_all_pass demoSolver _ hpass]
    simp
  · rw [h.2.2, demoSolver_accep_n_it]
    refine ⟨by simp, ?_⟩
    intro y hy
    exact hpass y (List.mem_reverse.mp (List.mem_of_mem_take hy))

/-! ## C9 -/

theorem resultAt_of_lt (p : hiopSolveStatus × hiopAugLagrSolver A) (xs : List TermArgs)
    (k : Nat) (hk : k < xs.length) :
    resultAt p xs k =
      some ((callCheck (afterCalls p (xs.take k)) xs[k]).1,
        (callCheck (afterCalls p (xs.take k)) xs[k]).2.1) := by
  unfold resultAt
  rw [List.getElem?_eq_getElem hk]
  rfl

theorem resultAt_of_ge (p : hiopSolveStatus × hiopAugLagrSolver A) (xs : List TermArgs)
    (k : Nat) (hk : xs.length ≤ k) : resultAt p xs k = none := by
  unfold resultAt
  rw [List.getElem?_eq_none hk]
  rfl

/-- In a sequence on which no earlier rule fires, started with the counter at 0, call number
`k` returns true with `Solve_Acceptable_Level` exactly when the run of passes ending at that
call has length at least `accep_n_it`. -/
theorem resultAt_acceptable_iff (st : hiopSolveStatus) (s : hiopAugLagrSolver A)
    (xs : List TermArgs) (k : Nat) (h0 : s._n_accep_iters = 0)
    (hne : ∀ y ∈ xs, noEarlierRule s y) :
    resultAt (st, s) xs k = some (true, hiopSolveStatus.Solve_Acceptable_Level) ↔
      (k < xs.length ∧ s.accep_n_it ≤ (accepRun s (xs.take (k + 1)) : Int)) := by
  by_cases hk : k < xs.length
  · rw [resultAt_of_lt _ _ _ hk]
    have htake : xs.take (k + 1) = xs.take k ++ [xs[k]] := by
      rw [List.take_succ, List.getElem?_eq_getElem hk]
      rfl
    have hne2 : ∀ y ∈ xs.take k ++ [xs[k]], noEarlierRule s y := by
      intro y hy
      rw [← htake] at hy
      exact hne y (List.mem_of_mem_take hy)
    have h := (callCheck_after st s (xs.take k) xs[k] h0 hne2).2.1
    rw [htake, ← h]
    simp [hk, Prod.ext_iff]
  · rw [resultAt_of_ge _ _ _ (not_lt.mp hk)]
    simp [hk]

/-- The run of passes at the end of each prefix of a sequence made of passes `ps1`, one fail
`f`, and passes `ps2`. -/
theorem accepRun_take_pass_fail_pass (s : hiopAugLagrSolver A) (ps1 ps2 : List TermArgs)
    (f : TermArgs) (hp1 : ∀ y ∈ ps1, passesAccep s y) (hf : ¬ passesAccep s f)
    (hp2 : ∀ y ∈ ps2, passesAccep s y) (k : Nat) :
    accepRun s ((ps1 ++ f :: ps2).take (k + 1)) =
      if k < ps1.length then k + 1 else min (k - ps1.length) ps2.length := by
  rw [List.take_append_eq_append_take]
  by_cases hk : k < ps1.length
  · rw [if_pos hk]
    have h0 : k + 1 - ps1.length = 0 := by omega
    rw [h0, List.take_zero, List.append_nil,
      accepRun_of_all_pass s _ (fun y hy => hp1 y (List.mem_of_mem_take hy)), List.length_take]
    omega
  · rw [if_neg hk]
    have h1 : k + 1 - ps1.length = (k - ps1.length) + 1 := by omega
    rw [h1, List.take_succ_cons, List.take_of_length_le (by omega),
      accepRun_after_fail s _ _ f hf (fun y hy => hp2 y (List.mem_of_mem_take hy)),
      List.length_take]

/-- C9, as stated, fails: on the concrete solver (`accep_n_it = 5`, counter 0), in the sequence
of 6 passing calls, 1 failing call and 4 passing calls, with no other rule firing, the fifth
call (number 4 from 0) returns true with `Solve_Acceptable_Level`. -/
theorem accep_sequence_counterexample :
    (demoSolver._n_accep_iters = 0 ∧ demoSolver.accep_n_it = 5 ∧
      (∀ y ∈ List.replicate 6 accepPass ++ accepFail :: List.replicate 4 accepPass,
        noEarlierRule demoSolver y) ∧
      passesAccep demoSolver accepPass ∧ ¬ passesAccep demoSolver accepFail) ∧
    resultAt (hiopSolveStatus.NlpSolve_Pending, demoSolver)
      (List.replicate 6 accepPass ++ accepFail :: List.replicate 4 accepPass) 4 =
        some (true, hiopSolveStatus.Solve_Acceptable_Level) := by
  have hne : ∀ y ∈ List.replicate 6 accepPass ++ accepFail :: List.replicate 4 accepPass,
      noEarlierRule demoSolver y := by
    intro y hy
    have : y = accepPass ∨ y = accepFail := by
      simp only [List.mem_append, List.mem_cons, List.mem_replicate] at hy
      tauto
    rcases this with h | h
    · rw [h]; exact demoSolver_accepPass.1
    · rw [h]; exact demoSolver_accepFail.1
  refine ⟨⟨demoSolver_n_accep_iters, demoSolver_accep_n_it, hne, demoSolver_accepPass.2,
    demoSolver_accepFail.2⟩, ?_⟩
  rw [resultAt_acceptable_iff _ _ _ _ demoSolver_n_accep_iters hne,
    accepRun_take_pass_fail_pass demoSolver _ _ _
      (fun y hy => by rw [List.eq_of_mem_replicate hy]; exact demoSolver_accepPass.2)
      demoSolver_accepFail.2
      (fun y hy => by rw [List.eq_of_mem_replicate hy]; exact demoSolver_accepPass.2),
    demoSolver_accep_n_it]
  simp

/-- C9, amended: starting with the counter at 0, with `accep_n_it ≥ 1` and no other rule
firing, in the sequence made of `accep_n_it + 1` passing calls, one failing call and
`accep_n_it - 1` passing calls, a call returns true with `Solve_Acceptable_Level` exactly when
it is call number `accep_n_it` or `accep_n_it + 1` (counted from 1) of the initial run; the
failing call and the `accep_n_it - 1` calls after it never do. -/
theorem accep_sequence_only_initial_run (s : hiopAugLagrSolver A) (st : hiopSolveStatus)
    (ps1 ps2 : List TermArgs) (f : TermArgs)
    (h0 : s._n_accep_iters = 0) (hacc : 1 ≤ s.accep_n_it)
    (hl1 : ps1.length = (s.accep_n_it + 1).toNat) (hl2 : ps2.length + 1 = s.accep_n_it.toNat)
    (hp1 : ∀ y ∈ ps1, passesAccep s y) (hf : ¬ passesAccep s f)
    (hp2 : ∀ y ∈ ps2, passesAccep s y)
    (hne : ∀ y ∈ ps1 ++ f :: ps2, noEarlierRule s y) :
    (∀ k : Nat, resultAt (st, s) (ps1 ++ f :: ps2) k =
        some (true, hiopSolveStatus.Solve_Acceptable_Level) ↔
      (k + 1 = s.accep_n_it.toNat ∨ k = s.accep_n_it.toNat)) ∧
    (∀ j : Nat, resultAt (st, s) (ps1 ++ f :: ps2) (ps1.length + j) ≠
        some (true, hiopSolveStatus.Solve_Acceptable_Level)) := by
  have hiff : ∀ k : Nat, resultAt (st, s) (ps1 ++ f :: ps2) k =
        some (true, hiopSolveStatus.Solve_Acceptable_Level) ↔
      (k + 1 = s.accep_n_it.toNat ∨ k = s.accep_n_it.toNat) := by
    intro k
    rw [resultAt_acceptable_iff st s _ k h0 hne,
      accepRun_take_pass_fail_pass s ps1 ps2 f hp1 hf hp2 k]
    have hlen : (ps1 ++ f :: ps2).length = ps1.length + (ps2.length + 1) := by simp
    rw [hlen]
    split_ifs with hk <;> omega
  refine ⟨hiff, ?_⟩
  intro j hj
  have := (hiff (ps1.length + j)).mp hj
  omega

/-- Witness for C9 (amended): the concrete solver with 6 passes, 1 fail, 4 passes. -/
theorem accep_sequence_only_initial_run_witness :
    (∀ k : Nat, resultAt (hiopSolveStatus.NlpSolve_Pending, demoSolver)
        (List.replicate 6 accepPass ++ accepFail :: List.replicate 4 accepPass) k =
        some (true, hiopSolveStatus.Solve_Acceptable_Level) ↔
      (k + 1 = demoSolver.accep_n_it.toNat ∨ k = demoSolver.accep_n_it.toNat)) ∧
    (∀ j : Nat, resultAt (hiopSolveStatus.NlpSolve_Pending, demoSolver)
        (List.replicate 6 accepPass ++ accepFail :: List.replicate 4 accepPass)
        ((List.replicate 6 accepPass).length + j) ≠
        some (true, hiopSolveStatus.Solve_Acceptable_Level)) :=
  accep_sequence_only_initial_run demoSolver hiopSolveStatus.NlpSolve_Pending
    (List.replicate 6 accepPass) (List.replicate 4 accepPass) accepFail
    demoSolver_n_accep_iters (by rw [demoSolver_accep_n_it]; norm_num)
    (by rw [demoSolver_accep_n_it]; simp) (by rw [demoSolver_accep_n_it]; simp)
    (fun y hy => by rw [List.eq_of_mem_replicate hy]; exact demoSolver_accepPass.2)
    demoSolver_accepFail.2
    (fun y hy => by rw [List.eq_of_mem_replicate hy]; exact demoSolver_accepPass.2)
    (by
      intro y hy
      have : y = accepPass ∨ y = accepFail := by
        simp only [List.mem_append, List.mem_cons, List.mem_replicate] at hy
        tauto
      rcases this with h | h
      · rw [h]; exact demoSolver_accepPass.1
      · rw [h]; exact demoSolver_accepFail.1)

/-! ## The status returned by `run` -/

/-- When `checkTermination` returns true, the status it leaves is one of the four termination
statuses. -/
theorem checkTermination_true_status (s : hiopAugLagrSolver A) (err_feas err_optim : ℚ)
    (iter_num : Int) (status : hiopSolveStatus)
    (h : (checkTermination s err_feas err_optim iter_num status).1 = true) :
    (checkTermination s err_feas err_optim iter_num status).2.1 = hiopSolveStatus.Solve_Success ∨
    (checkTermination s err_feas err_optim iter_num status).2.1 =
      hiopSolveStatus.Max_Iter_Exceeded ∨
    (checkTermination s err_feas err_optim iter_num status).2.1 =
      hiopSolveStatus.Solve_Success_RelTol ∨
    (checkTermination s err_feas err_optim iter_num status).2.1 =
      hiopSolveStatus.Solve_Acceptable_Level := by
  unfold checkTermination at h ⊢
  dsimp only at h ⊢
  split_ifs at h ⊢ <;> simp at h ⊢

/-- A pass through the loop body that leaves through `break` ends with the status assigned by
its termination check, one of the four termination statuses. -/
theorem loopBody_break_status (c : Collaborators A) (s : hiopAugLagrSolver A)
    (h : (loopBody c s).2 = true) :
    (loopBody c s).1._solverStatus = hiopSolveStatus.Solve_Success ∨
    (loopBody c s).1._solverStatus = hiopSolveStatus.Max_Iter_Exceeded ∨
    (loopBody c s).1._solverStatus = hiopSolveStatus.Solve_Success_RelTol ∨
    (loopBody c s).1._solverStatus = hiopSolveStatus.Solve_Acceptable_Level := by
  unfold loopBody at h ⊢
  dsimp only at h ⊢
  split_ifs at h ⊢ with ht
  exact checkTermination_true_status _ _ _ _ _ ht

/-- When the loop ends, the solver status is one of the four termination statuses. -/
theorem outerLoop_status (c : Collaborators A) (fuel : Nat) (s s1 : hiopAugLagrSolver A)
    (h : outerLoop c fuel s = some s1) :
    s1._solverStatus = hiopSolveStatus.Solve_Success ∨
    s1._solverStatus = hiopSolveStatus.Max_Iter_Exceeded ∨
    s1._solverStatus = hiopSolveStatus.Solve_Success_RelTol ∨
    s1._solverStatus = hiopSolveStatus.Solve_Acceptable_Level := by
  induction fuel generalizing s with
  | zero => simp [outerLoop] at h
  | succ fuel ih =>
    unfold outerLoop at h
    dsimp only at h
    split_ifs at h with hb
    · have h2 : (loopBody c s).1 = s1 := by simpa using h
      rw [← h2]
      exact loopBody_break_status c s hb
    · exact ih _ h

theorem runInit_status (c : Collaborators A) (s : hiopAugLagrSolver A) :
    (runInit c s).1._solverStatus = hiopSolveStatus.NlpSolve_Pending := rfl

theorem runInit_notConverged (c : Collaborators A) (s : hiopAugLagrSolver A) :
    (runInit c s).2 = !(checkTermination (runStart c s) (runStart c s)._err_feas
      (runStart c s)._err_optim (runStart c s).iter_num (runStart c s)._solverStatus).1 := rfl

/-- When the termination check made before the loop reports termination, `run` returns
`NlpSolve_Pending`, whatever status that check assigned. -/
theorem runFuel_of_initial_termination (c : Collaborators A) (fuel : Nat)
    (s : hiopAugLagrSolver A)
    (h : (checkTermination (runStart c s) (runStart c s)._err_feas (runStart c s)._err_optim
      (runStart c s).iter_num (runStart c s)._solverStatus).1 = true) :
    runFuel c fuel s = some (hiopSolveStatus.NlpSolve_Pending, (runInit c s).1) := by
  unfold runFuel
  dsimp only
  rw [runInit_notConverged, h]
  simp [runInit_status]

theorem runStart_demoSolverAtZero :
    (runStart (demoCollab 0 100) demoSolverAtZero)._err_feas = 0 ∧
    (runStart (demoCollab 0 100) demoSolverAtZero)._err_optim = 0 ∧
    (runStart (demoCollab 0 100) demoSolverAtZero).eps_tol = 1 / 10 ^ 6 := by
  simp [runStart, evalNlpErrors, evalNlp, resetSolverStatus, reInitializeNlpObjects,
    reloadOptions, demoCollab, demoSolverAtZero, ctor]

/-! ## C1 -/

/-- C1 fails on the code: on the concrete problem started at the origin, both errors are zero,
so the termination check made before the first outer iteration returns true and assigns
`Solve_Success`; `run` nevertheless returns `NlpSolve_Pending`, because the status is
overwritten between that check and the loop. -/
theorem run_returns_pending_after_initial_success :
    (checkTermination (runStart (demoCollab 0 100) demoSolverAtZero)
      (runStart (demoCollab 0 100) demoSolverAtZero)._err_feas
      (runStart (demoCollab 0 100) demoSolverAtZero)._err_optim
      (runStart (demoCollab 0 100) demoSolverAtZero).iter_num
      (runStart (demoCollab 0 100) demoSolverAtZero)._solverStatus).1 = true ∧
    (checkTermination (runStart (demoCollab 0 100) demoSolverAtZero)
      (runStart (demoCollab 0 100) demoSolverAtZero)._err_feas
      (runStart (demoCollab 0 100) demoSolverAtZero)._err_optim
      (runStart (demoCollab 0 100) demoSolverAtZero).iter_num
      (runStart (demoCollab 0 100) demoSolverAtZero)._solverStatus).2.1 =
        hiopSolveStatus.Solve_Success ∧
    (run (demoCollab 0 100) demoSolverAtZero).map Prod.fst =
      some hiopSolveStatus.NlpSolve_Pending := by
  obtain ⟨h1, h2, h3⟩ := runStart_demoSolverAtZero
  have habs : (runStart (demoCollab 0 100) demoSolverAtZero)._err_feas ≤
        (runStart (demoCollab 0 100) demoSolverAtZero).eps_tol ∧
      (runStart (demoCollab 0 100) demoSolverAtZero)._err_optim ≤
        (runStart (demoCollab 0 100) demoSolverAtZero).eps_tol := by
    rw [h1, h2, h3]
    norm_num
  have hct := checkTermination_of_absTol (runStart (demoCollab 0 100) demoSolverAtZero)
    (runStart (demoCollab 0 100) demoSolverAtZero)._err_feas
    (runStart (demoCollab 0 100) demoSolverAtZero)._err_optim
    (runStart (demoCollab 0 100) demoSolverAtZero).iter_num
    (runStart (demoCollab 0 100) demoSolverAtZero)._solverStatus habs
  refine ⟨by rw [hct], by rw [hct], ?_⟩
  unfold run
  rw [runFuel_of_initial_termination _ _ _ (by rw [hct])]
  rfl

/-! ## A complete run of the concrete problem -/

theorem loopBody_of_break (c : Collaborators A) (s : hiopAugLagrSolver A)
    (st : hiopSolveStatus) (s2 : hiopAugLagrSolver A)
    (h : checkTermination (solveAndEval c s) (solveAndEval c s)._err_feas
      (solveAndEval c s)._err_optim (solveAndEval c s).iter_num
      (solveAndEval c s)._solverStatus = (true, st, s2)) :
    loopBody c s = ({ s2 with _solverStatus := st }, true) := by
  unfold loopBody
  dsimp only
  rw [h]
  rfl

theorem loopBody_of_continue (c : Collaborators A) (s : hiopAugLagrSolver A)
    (st : hiopSolveStatus) (s2 : hiopAugLagrSolver A)
    (h : checkTermination (solveAndEval c s) (solveAndEval c s)._err_feas
      (solveAndEval c s)._err_optim (solveAndEval c s).iter_num
      (solveAndEval c s)._solverStatus = (false, st, s2)) :
    loopBody c s = (advance c { s2 with _solverStatus := st }, false) := by
  unfold loopBody
  dsimp only
  rw [h]
  rfl

theorem outerLoop_succ (c : Collaborators A) (fuel : Nat) (s : hiopAugLagrSolver A) :
    outerLoop c (fuel + 1) s =
      if (loopBody c s).2 then some (loopBody c s).1 else outerLoop c fuel (loopBody c s).1 := rfl

/-- An inner solve of the concrete problem divides the iterate by 100; the evaluation that
follows records the new objective, residuals and errors. -/
theorem solveAndEval_demoState (k : Nat) (x lam rho : ℚ) (st : hiopSolveStatus) (it acc : Int)
    (hx : 0 ≤ x) :
    solveAndEval (demoCollab 1 100) (demoState k x x lam rho st it acc) =
      demoState (k + 1) x (x / 100) lam rho st it acc := by
  have habs : |x / 100| = x / 100 := abs_of_nonneg (by positivity)
  simp [solveAndEval, evalNlpErrors, evalNlp, demoCollab, demoState, habs]

/-- The second half of a loop pass on the concrete problem. -/
theorem advance_demoState (k : Nat) (x0 x lam rho : ℚ) (st : hiopSolveStatus) (it acc : Int) :
    advance (demoCollab 1 100) (demoState k x0 x lam rho st it acc) =
      demoState k x x (lam + x / rho) (max (10 * rho) (10 ^ 7)) st (it + 1) acc := by
  have hl : updateLambdaLoop [x] rho 1 [lam] = [lam + x / rho] :=
    updateLambdaLoop_eq_zipWith [x] rho [lam] rfl
  simp [advance, updateRho, updateLambda, demoCollab, demoState, hl]

theorem runInit_demoSolver :
    runInit (demoCollab 1 100) demoSolver =
      (demoState 0 1 1 1 100 hiopSolveStatus.NlpSolve_Pending 0 0, true) := by
  simp [runInit, runStart, evalNlpErrors, evalNlp, resetSolverStatus, reInitializeNlpObjects,
    reloadOptions, demoCollab, demoSolver, ctor, checkTermination, demoState, demoAdapter]
  norm_num

/-- The termination check of the concrete problem when no rule fires and the errors are not
within the acceptable tolerance. -/
theorem checkTermination_demoState_fail (k : Nat) (x0 x lam rho : ℚ) (st : hiopSolveStatus)
    (it acc : Int) (hx : 1 / 10 ^ 4 < x) (hit : it < 1000) :
    checkTermination (demoState k x0 x lam rho st it acc) x x it st =
      (false, st, demoState k x0 x lam rho st it 0) := by
  obtain ⟨S, hS⟩ : ∃ S, S = demoState k x0 x lam rho st it acc := ⟨_, rfl⟩
  have e1 : S.eps_tol = 1 / 10 ^ 6 := by rw [hS]; rfl
  have e2 : S.eps_tol_accep = 1 / 10 ^ 4 := by rw [hS]; rfl
  have e3 : S.max_n_it = 1000 := by rw [hS]; rfl
  have e4 : S.eps_rtol = 1 / 10 ^ 6 := by rw [hS]; rfl
  have e5 : S._err_optim0 = 1 := by rw [hS]; rfl
  have e6 : S.accep_n_it = 5 := by rw [hS]; rfl
  have h1 : ¬ (x ≤ S.eps_tol ∧ x ≤ S.eps_tol) := by
    rw [e1]; intro h; have := h.1; norm_num at this hx; linarith
  have h2 : ¬ (x ≤ S.eps_tol_accep ∧ x ≤ S.eps_tol_accep) := by
    rw [e2]; exact fun h => absurd h.1 (not_le.mpr hx)
  have h3 : ¬ it ≥ S.max_n_it := by rw [e3]; exact not_le.mpr hit
  have hrel : ¬ (S.eps_rtol > 0 ∧
      (x ≤ S.eps_rtol * S._err_optim0 ∧ x ≤ S.eps_rtol * S._err_feas0)) := by
    rw [e4, e5]; intro h; have := h.2.1; norm_num at this hx; linarith
  have h4 : ¬ ((0 : Int) ≥ S.accep_n_it) := by rw [e6]; norm_num
  rw [← hS, checkTermination_of_noEarlier S x x it st h1 h3 hrel, if_neg h2, if_neg h4, hS]
  rfl

/-- The termination check of the concrete problem when no rule fires and the errors are
within the acceptable tolerance, fewer than five times in a row. -/
theorem checkTermination_demoState_pass (k : Nat) (x0 x lam rho : ℚ) (st : hiopSolveStatus)
    (it acc : Int) (hx1 : 1 / 10 ^ 6 < x) (hx2 : x ≤ 1 / 10 ^ 4) (hit : it < 1000)
    (hacc : acc + 1 < 5) :
    checkTermination (demoState k x0 x lam rho st it acc) x x it st =
      (false, st, demoState k x0 x lam rho st it (acc + 1)) := by
  obtain ⟨S, hS⟩ : ∃ S, S = demoState k x0 x lam rho st it acc := ⟨_, rfl⟩
  have e1 : S.eps_tol = 1 / 10 ^ 6 := by rw [hS]; rfl
  have e2 : S.eps_tol_accep = 1 / 10 ^ 4 := by rw [hS]; rfl
  have e3 : S.max_n_it = 1000 := by rw [hS]; rfl
  have e4 : S.eps_rtol = 1 / 10 ^ 6 := by rw [hS]; rfl
  have e5 : S._err_optim0 = 1 := by rw [hS]; rfl
  have e6 : S.accep_n_it = 5 := by rw [hS]; rfl
  have e7 : S._n_accep_iters = acc := by rw [hS]; rfl
  have h1 : ¬ (x ≤ S.eps_tol ∧ x ≤ S.eps_tol) := by
    rw [e1]; exact fun h => absurd h.1 (not_le.mpr hx1)
  have h2 : x ≤ S.eps_tol_accep ∧ x ≤ S.eps_tol_accep := by
    rw [e2]; exact ⟨hx2, hx2⟩
  have h3 : ¬ it ≥ S.max_n_it := by rw [e3]; exact not_le.mpr hit
  have hrel : ¬ (S.eps_rtol > 0 ∧
      (x ≤ S.eps_rtol * S._err_optim0 ∧ x ≤ S.eps_rtol * S._err_feas0)) := by
    rw [e4, e5]; intro h; have := h.2.1; norm_num at this hx1; linarith
  have h4 : ¬ (S._n_accep_iters + 1 ≥ S.accep_n_it) := by
    rw [e6, e7]; exact not_le.mpr hacc
  rw [← hS, checkTermination_of_noEarlier S x x it st h1 h3 hrel, if_pos h2, if_neg h4, hS]
  rfl

/-- The termination check of the concrete problem when both errors are within `eps_tol`. -/
theorem checkTermination_demoState_success (k : Nat) (x0 x lam rho : ℚ) (st : hiopSolveStatus)
    (it acc : Int) (hx : x ≤ 1 / 10 ^ 6) :
    checkTermination (demoState k x0 x lam rho st it acc) x x it st =
      (true, hiopSolveStatus.Solve_Success, demoState k x0 x lam rho st it acc) :=
  checkTermination_of_absTol (demoState k x0 x lam rho st it acc) x x it st ⟨hx, hx⟩

/-- The run of the concrete problem: three inner solves, two updates of the multipliers and of
the penalty parameter, status `Solve_Success`, and the solver left behind. -/
theorem run_demoSolver :
    run (demoCollab 1 100) demoSolver =
      some (hiopSolveStatus.Solve_Success,
        demoState 3 (1 / 10 ^ 4) (1 / 10 ^ 6) (100010000001 / 100000000000) (10 ^ 8)
          hiopSolveStatus.Solve_Success 2 1) := by
  have hfuel : (((demoCollab 1 100).GetInteger demoSolver.nlp "max_iter").toNat + 1) =
      998 + 1 + 1 + 1 := by
    simp [demoCollab]
  have hb1 : loopBody (demoCollab 1 100)
      (demoState 0 1 1 1 100 hiopSolveStatus.NlpSolve_Pending 0 0) =
      (demoState 1 (1 / 10 ^ 2) (1 / 10 ^ 2) (10001 / 10000) (10 ^ 7)
        hiopSolveStatus.NlpSolve_Pending 1 0, false) := by
    rw [loopBody_of_continue _ _ hiopSolveStatus.NlpSolve_Pending
      (demoState 1 1 (1 / 100) 1 100 hiopSolveStatus.NlpSolve_Pending 0 0)]
    · rw [show ({ demoState 1 1 (1 / 100) 1 100 hiopSolveStatus.NlpSolve_Pending 0 0 with
          _solverStatus := hiopSolveStatus.NlpSolve_Pending } : hiopAugLagrSolver DemoAdapter) =
          demoState 1 1 (1 / 100) 1 100 hiopSolveStatus.NlpSolve_Pending 0 0 from rfl,
        advance_demoState]
      norm_num
    · rw [solveAndEval_demoState 0 1 1 100 _ 0 0 (by norm_num)]
      exact checkTermination_demoState_fail 1 1 (1 / 100) 1 100 _ 0 0 (by norm_num) (by norm_num)
  have hb2 : loopBody (demoCollab 1 100)
      (demoState 1 (1 / 10 ^ 2) (1 / 10 ^ 2) (10001 / 10000) (10 ^ 7)
        hiopSolveStatus.NlpSolve_Pending 1 0) =
      (demoState 2 (1 / 10 ^ 4) (1 / 10 ^ 4) (100010000001 / 100000000000) (10 ^ 8)
        hiopSolveStatus.NlpSolve_Pending 2 1, false) := by
    rw [loopBody_of_continue _ _ hiopSolveStatus.NlpSolve_Pending
      (demoState 2 (1 / 10 ^ 2) (1 / 10 ^ 2 / 100) (10001 / 10000) (10 ^ 7)
        hiopSolveStatus.NlpSolve_Pending 1 1)]
    · rw [show ({ demoState 2 (1 / 10 ^ 2) (1 / 10 ^ 2 / 100) (10001 / 10000) (10 ^ 7)
            hiopSolveStatus.NlpSolve_Pending 1 1 with
          _solverStatus := hiopSolveStatus.NlpSolve_Pending } : hiopAugLagrSolver DemoAdapter) =
          demoState 2 (1 / 10 ^ 2) (1 / 10 ^ 2 / 100) (10001 / 10000) (10 ^ 7)
            hiopSolveStatus.NlpSolve_Pending 1 1 from rfl,
        advance_demoState]
      norm_num
    · rw [solveAndEval_demoState 1 (1 / 10 ^ 2) _ _ _ 1 0 (by norm_num)]
      exact checkTermination_demoState_pass 2 (1 / 10 ^ 2) (1 / 10 ^ 2 / 100) _ _ _ 1 0
        (by norm_num) (by norm_num) (by norm_num) (by norm_num)
  have hb3 : loopBody (demoCollab 1 100)
      (demoState 2 (1 / 10 ^ 4) (1 / 10 ^ 4) (100010000001 / 100000000000) (10 ^ 8)
        hiopSolveStatus.NlpSolve_Pending 2 1) =
      (demoState 3 (1 / 10 ^ 4) (1 / 10 ^ 6) (100010000001 / 100000000000) (10 ^ 8)
        hiopSolveStatus.Solve_Success 2 1, true) := by
    rw [loopBody_of_break _ _ hiopSolveStatus.Solve_Success
      (demoState 3 (1 / 10 ^ 4) (1 / 10 ^ 4 / 100) (100010000001 / 100000000000) (10 ^ 8)
        hiopSolveStatus.NlpSolve_Pending 2 1)]
    · norm_num [demoState]
    · rw [solveAndEval_demoState 2 (1 / 10 ^ 4) _ _ _ 2 1 (by norm_num)]
      exact checkTermination_demoState_success 3 (1 / 10 ^ 4) (1 / 10 ^ 4 / 100) _ _ _ 2 1
        (by norm_num)
  unfold run runFuel
  dsimp only
  rw [runInit_demoSolver, hfuel]
  dsimp only
  rw [if_pos rfl, outerLoop_succ, hb1]
  dsimp only
  rw [if_neg Bool.false_ne_true, outerLoop_succ, hb2]
  dsimp only
  rw [if_neg Bool.false_ne_true, outerLoop_succ, hb3]
  dsimp only
  rw [if_pos rfl]
  rfl

/-- The run of the concrete problem ends with the penalty parameter at `10^8`, above
`rho_max = 10^7`. -/
theorem run_demoSolver_rho :
    (run (demoCollab 1 100) demoSolver).map (fun r => (r.2._rho_curr, r.2.rho_max)) =
      some (10 ^ 8, 10 ^ 7) := by
  rw [run_demoSolver]
  rfl

/-! ## C13 -/

/-- The status left by `checkTermination` is the assigned one when an assignment is executed,
and the incoming one otherwise; the Boolean result tells whether an assignment was executed. -/
theorem checkTermination_eq_assigns (s : hiopAugLagrSolver A) (err_feas err_optim : ℚ)
    (iter_num : Int) (status : hiopSolveStatus) :
    (checkTermination s err_feas err_optim iter_num status).1 =
      (checkTerminationAssigns s err_feas err_optim iter_num).isSome ∧
    (checkTermination s err_feas err_optim iter_num status).2.1 =
      (checkTerminationAssigns s err_feas err_optim iter_num).getD status := by
  unfold checkTermination checkTerminationAssigns
  dsimp only
  split_ifs <;> exact ⟨rfl, rfl⟩

theorem checkTerminationAssigns_range (s : hiopAugLagrSolver A) (err_feas err_optim : ℚ)
    (iter_num : Int) :
    checkTerminationAssigns s err_feas err_optim iter_num = none ∨
    checkTerminationAssigns s err_feas err_optim iter_num =
      some hiopSolveStatus.Solve_Success ∨
    checkTerminationAssigns s err_feas err_optim iter_num =
      some hiopSolveStatus.Max_Iter_Exceeded ∨
    checkTerminationAssigns s err_feas err_optim iter_num =
      some hiopSolveStatus.Solve_Success_RelTol ∨
    checkTerminationAssigns s err_feas err_optim iter_num =
      some hiopSolveStatus.Solve_Acceptable_Level := by
  unfold checkTerminationAssigns
  dsimp only
  split_ifs <;> simp

/-- C13: `checkTermination` returns true if and only if it assigns its status argument, the
value assigned is one of `Solve_Success`, `Max_Iter_Exceeded`, `Solve_Success_RelTol`,
`Solve_Acceptable_Level`, and without assignment (result false) the status argument keeps its
value; the tolerances, the iteration cap, the recorded initial errors, `rho`, `lambda` and
every other member except `_n_accep_iters` are unchanged. -/
theorem checkTermination_sets_status_only_when_terminating (s : hiopAugLagrSolver A)
    (err_feas err_optim : ℚ) (iter_num : Int) (status : hiopSolveStatus) :
    ((checkTermination s err_feas err_optim iter_num status).1 = true ↔
      ∃ st, checkTerminationAssigns s err_feas err_optim iter_num = some st) ∧
    (checkTerminationAssigns s err_feas err_optim iter_num = none ∨
      checkTerminationAssigns s err_feas err_optim iter_num =
        some hiopSolveStatus.Solve_Success ∨
      checkTerminationAssigns s err_feas err_optim iter_num =
        some hiopSolveStatus.Max_Iter_Exceeded ∨
      checkTerminationAssigns s err_feas err_optim iter_num =
        some hiopSolveStatus.Solve_Success_RelTol ∨
      checkTerminationAssigns s err_feas err_optim iter_num =
        some hiopSolveStatus.Solve_Acceptable_Level) ∧
    (checkTermination s err_feas err_optim iter_num status).2.1 =
      (checkTerminationAssigns s err_feas err_optim iter_num).getD status ∧
    (((checkTermination s err_feas err_optim iter_num status).1 = false ∧
        (checkTermination s err_feas err_optim iter_num status).2.1 = status) ∨
      ((checkTermination s err_feas err_optim iter_num status).1 = true ∧
        ((checkTermination s err_feas err_optim iter_num status).2.1 =
            hiopSolveStatus.Solve_Success ∨
          (checkTermination s err_feas err_optim iter_num status).2.1 =
            hiopSolveStatus.Max_Iter_Exceeded ∨
          (checkTermination s err_feas err_optim iter_num status).2.1 =
            hiopSolveStatus.Solve_Success_RelTol ∨
          (checkTermination s err_feas err_optim iter_num status).2.1 =
            hiopSolveStatus.Solve_Acceptable_Level))) ∧
    ((checkTermination s err_feas err_optim iter_num status).2.2.eps_tol = s.eps_tol ∧
      (checkTermination s err_feas err_optim iter_num status).2.2.eps_rtol = s.eps_rtol ∧
      (checkTermination s err_feas err_optim iter_num status).2.2.eps_tol_accep =
        s.eps_tol_accep ∧
      (checkTermination s err_feas err_optim iter_num status).2.2.max_n_it = s.max_n_it ∧
      (checkTermination s err_feas err_optim iter_num status).2.2.accep_n_it = s.accep_n_it ∧
      (checkTermination s err_feas err_optim iter_num status).2.2._err_feas0 = s._err_feas0 ∧
      (checkTermination s err_feas err_optim iter_num status).2.2._err_optim0 = s._err_optim0 ∧
      (checkTermination s err_feas err_optim iter_num status).2.2._rho_curr = s._rho_curr ∧
      (checkTermination s err_feas err_optim iter_num status).2.2.rho_max = s.rho_max ∧
      (checkTermination s err_feas err_optim iter_num status).2.2._lam_curr = s._lam_curr) ∧
    (∃ k : Int, (checkTermination s err_feas err_optim iter_num status).2.2 =
      { s with _n_accep_iters := k }) := by
  obtain ⟨h1, h2⟩ := checkTermination_eq_assigns s err_feas err_optim iter_num status
  have hr := checkTerminationAssigns_range s err_feas err_optim iter_num
  obtain ⟨k, hk⟩ := checkTermination_frame s err_feas err_optim iter_num status
  refine ⟨?_, hr, h2, ?_, ?_, ⟨k, hk⟩⟩
  · rw [h1, Option.isSome_iff_exists]
  · rw [h1, h2]
    rcases hr with h | h | h | h | h <;> rw [h] <;> simp
  · rw [hk]
    exact ⟨rfl, rfl, rfl, rfl, rfl, rfl, rfl, rfl, rfl, rfl⟩

/-! ## C11 -/

theorem getObjective_eq_zero (s : hiopAugLagrSolver A) : getObjective s = 0 := rfl

/-- C11 fails on the code: after the run of the concrete problem the final objective value is
`_f_nlp = 1e-6`, the user objective that `evalNlp` computed at the final iterate, but
`getObjective` returns `0`. -/
theorem getObjective_after_run_is_not_f_nlp :
    ∃ r, run (demoCollab 1 100) demoSolver = some r ∧
      r.2._it_curr = [1 / 10 ^ 6] ∧
      r.2._f_nlp = ((demoCollab 1 100).eval_f_user r.2.nlp r.2.n r.2._it_curr).1 ∧
      r.2._f_nlp = 1 / 10 ^ 6 ∧
      getObjective r.2 = 0 ∧
      getObjective r.2 ≠ r.2._f_nlp := by
  refine ⟨_, run_demoSolver, rfl, ?_, rfl, rfl, ?_⟩
  · simp [demoState, demoCollab]
  · rw [getObjective_eq_zero]
    norm_num [demoState]

/-! ## Termination of the outer loop -/

theorem checkTermination_kept (s : hiopAugLagrSolver A) (err_feas err_optim : ℚ)
    (iter_num : Int) (status : hiopSolveStatus) :
    (checkTermination s err_feas err_optim iter_num status).2.2.nlp = s.nlp ∧
    (checkTermination s err_feas err_optim iter_num status).2.2.iter_num = s.iter_num ∧
    (checkTermination s err_feas err_optim iter_num status).2.2.max_n_it = s.max_n_it ∧
    (checkTermination s err_feas err_optim iter_num status).2.2._f_nlp = s._f_nlp ∧
    (checkTermination s err_feas err_optim iter_num status).2.2._it_curr = s._it_curr := by
  obtain ⟨k, hk⟩ := checkTermination_frame s err_feas err_optim iter_num status
  rw [hk]
  exact ⟨rfl, rfl, rfl, rfl, rfl⟩

/-- A termination check that returns false was made below the iteration cap. -/
theorem checkTermination_false_lt (s : hiopAugLagrSolver A) (err_feas err_optim : ℚ)
    (iter_num : Int) (status : hiopSolveStatus)
    (h : (checkTermination s err_feas err_optim iter_num status).1 = false) :
    iter_num < s.max_n_it := by
  by_contra hlt
  have hge : iter_num ≥ s.max_n_it := not_lt.mp hlt
  by_cases habs : err_feas ≤ s.eps_tol ∧ err_optim ≤ s.eps_tol
  · rw [checkTermination_of_absTol s err_feas err_optim iter_num status habs] at h
    simp at h
  · rw [checkTermination_of_maxIter s err_feas err_optim iter_num status habs hge] at h
    simp at h

/-- A pass through the loop body either leaves through `break` with `iter_num` unchanged, or
goes on with `iter_num` advanced by one, and then the check was made below the iteration cap;
`max_n_it` is unchanged. -/
theorem loopBody_iter (c : Collaborators A) (s : hiopAugLagrSolver A) :
    (((loopBody c s).2 = true ∧ (loopBody c s).1.iter_num = s.iter_num) ∨
      ((loopBody c s).2 = false ∧ (loopBody c s).1.iter_num = s.iter_num + 1 ∧
        s.iter_num < s.max_n_it)) ∧
    (loopBody c s).1.max_n_it = s.max_n_it := by
  have hk := checkTermination_kept (solveAndEval c s) (solveAndEval c s)._err_feas
    (solveAndEval c s)._err_optim (solveAndEval c s).iter_num (solveAndEval c s)._solverStatus
  unfold loopBody
  dsimp only
  split_ifs with ht
  · exact ⟨Or.inl ⟨rfl, hk.2.1⟩, hk.2.2.1⟩
  · have hf : (checkTermination (solveAndEval c s) (solveAndEval c s)._err_feas
        (solveAndEval c s)._err_optim (solveAndEval c s).iter_num
        (solveAndEval c s)._solverStatus).1 = false := by simpa using ht
    have hlt := checkTermination_false_lt _ _ _ _ _ hf
    refine ⟨Or.inr ⟨rfl, ?_, hlt⟩, hk.2.2.1⟩
    show (checkTermination (solveAndEval c s) (solveAndEval c s)._err_feas
        (solveAndEval c s)._err_optim (solveAndEval c s).iter_num
        (solveAndEval c s)._solverStatus).2.2.iter_num + 1 = s.iter_num + 1
    rw [hk.2.1]
    rfl

/-- The loop ends within `max_n_it - iter_num + 1` passes: with more fuel than
`max_n_it - iter_num` it returns, with `iter_num` still at most `max_n_it`. -/
theorem outerLoop_terminates (c : Collaborators A) (fuel : Nat) (s : hiopAugLagrSolver A)
    (hle : s.iter_num ≤ s.max_n_it) (hfuel : (s.max_n_it - s.iter_num).toNat < fuel) :
    ∃ s1, outerLoop c fuel s = some s1 ∧ s1.iter_num ≤ s1.max_n_it ∧
      s1.max_n_it = s.max_n_it ∧ s.iter_num ≤ s1.iter_num := by
  induction fuel generalizing s with
  | zero => omega
  | succ fuel ih =>
    obtain ⟨hcase, hmax⟩ := loopBody_iter c s
    rw [outerLoop_succ]
    rcases hcase with ⟨hb, hit⟩ | ⟨hb, hit, hlt⟩
    · rw [hb, if_pos rfl]
      exact ⟨_, rfl, by rw [hit, hmax]; exact hle, hmax, by rw [hit]⟩
    · rw [hb, if_neg Bool.false_ne_true]
      obtain ⟨s1, h1, h2, h3, h4⟩ := ih (loopBody c s).1 (by rw [hit, hmax]; omega)
        (by rw [hit, hmax]; omega)
      exact ⟨s1, h1, h2, by rw [h3, hmax], by rw [hit] at h4; omega⟩

/-- More fuel does not change the result of a loop that ended. -/
theorem outerLoop_fuel_mono (c : Collaborators A) (fuel k : Nat) (s s1 : hiopAugLagrSolver A)
    (h : outerLoop c fuel s = some s1) : outerLoop c (fuel + k) s = some s1 := by
  induction fuel generalizing s with
  | zero => simp [outerLoop] at h
  | succ fuel ih =>
    rw [show fuel + 1 + k = (fuel + k) + 1 by omega, outerLoop_succ]
    rw [outerLoop_succ] at h
    split_ifs at h ⊢ with hb
    · exact h
    · exact ih _ h

theorem runInit_iter (c : Collaborators A) (s : hiopAugLagrSolver A) :
    (runInit c s).1.iter_num = 0 ∧
    (runInit c s).1.max_n_it = c.GetInteger s.nlp "max_iter" ∧
    ((runInit c s).2 = true → 0 < c.GetInteger s.nlp "max_iter") := by
  have hk := checkTermination_kept (runStart c s) (runStart c s)._err_feas
    (runStart c s)._err_optim (runStart c s).iter_num (runStart c s)._solverStatus
  refine ⟨hk.2.1, hk.2.2.1, ?_⟩
  intro h
  rw [runInit_notConverged] at h
  have hf : (checkTermination (runStart c s) (runStart c s)._err_feas
      (runStart c s)._err_optim (runStart c s).iter_num
      (runStart c s)._solverStatus).1 = false := by simpa using h
  exact checkTermination_false_lt _ _ _ _ _ hf

/-- The function `run` always returns: the fuel `max_iter + 1` is never used up, and on
return `0 ≤ iter_num`, and `iter_num ≤ max_n_it` when `max_n_it ≥ 0`. -/
theorem run_returns (c : Collaborators A) (s : hiopAugLagrSolver A) :
    ∃ r, run c s = some r ∧ r.1 = r.2._solverStatus ∧
      r.2.max_n_it = c.GetInteger s.nlp "max_iter" ∧ 0 ≤ r.2.iter_num ∧
      (0 ≤ c.GetInteger s.nlp "max_iter" → r.2.iter_num ≤ r.2.max_n_it) := by
  obtain ⟨h0, hm, hpos⟩ := runInit_iter c s
  unfold run runFuel
  dsimp only
  by_cases hn : (runInit c s).2 = true
  · rw [if_pos hn]
    have hp := hpos hn
    obtain ⟨s1, h1, h2, h3, h4⟩ := outerLoop_terminates c
      ((c.GetInteger s.nlp "max_iter").toNat + 1) (runInit c s).1
      (by rw [h0, hm]; omega) (by rw [h0, hm]; omega)
    rw [h1]
    refine ⟨_, rfl, rfl, by rw [h3, hm], by rw [h0] at h4; exact h4, fun _ => h2⟩
  · rw [if_neg hn]
    exact ⟨_, rfl, rfl, hm, by rw [h0], fun h => by rw [h0, hm]; exact h⟩

/-- Any fuel of at least `max_iter + 1` gives the result of `run`. -/
theorem runFuel_eq_run (c : Collaborators A) (s : hiopAugLagrSolver A) (k : Nat) :
    runFuel c ((c.GetInteger s.nlp "max_iter").toNat + 1 + k) s = run c s := by
  obtain ⟨h0, hm, hpos⟩ := runInit_iter c s
  unfold run runFuel
  dsimp only
  by_cases hn : (runInit c s).2 = true
  · rw [if_pos hn, if_pos hn]
    obtain ⟨s1, h1, _⟩ := outerLoop_terminates c
      ((c.GetInteger s.nlp "max_iter").toNat + 1) (runInit c s).1
      (by rw [h0, hm]; exact le_of_lt (hpos hn)) (by rw [h0, hm]; omega)
    rw [h1, outerLoop_fuel_mono c _ k _ _ h1]
  · rw [if_neg hn, if_neg hn]

/-! ## Counting the calls made during a run -/

/-- An inner solve followed by the two evaluations advances the count of inner solves by one
and makes no `set_lambda` or `set_rho` call. -/
theorem solveAndEval_counting (c : Collaborators A) (s : hiopAugLagrSolver (A × CallCounts)) :
    (solveAndEval (counting c) s).nlp.2 =
      ⟨s.nlp.2.solves + 1, s.nlp.2.lambdaSets, s.nlp.2.rhoSets⟩ := rfl

/-- Every call of `updateLambda` makes exactly one `set_lambda` call and no other counted call. -/
theorem updateLambda_counting (c : Collaborators A) (s : hiopAugLagrSolver (A × CallCounts)) :
    (updateLambda (counting c) s).nlp.2 =
      ⟨s.nlp.2.solves, s.nlp.2.lambdaSets + 1, s.nlp.2.rhoSets⟩ := rfl

/-- Every call of `updateRho` makes exactly one `set_rho` call and no other counted call. -/
theorem updateRho_counting (c : Collaborators A) (s : hiopAugLagrSolver (A × CallCounts)) :
    (updateRho (counting c) s).nlp.2 =
      ⟨s.nlp.2.solves, s.nlp.2.lambdaSets, s.nlp.2.rhoSets + 1⟩ := rfl

/-- The second half of a loop pass calls `updateLambda` once and `updateRho` once. -/
theorem advance_counting (c : Collaborators A) (s : hiopAugLagrSolver (A × CallCounts)) :
    (advance (counting c) s).nlp.2 =
      ⟨s.nlp.2.solves, s.nlp.2.lambdaSets + 1, s.nlp.2.rhoSets + 1⟩ := rfl

/-- The part of `run` before the loop makes one `set_lambda` call and one `set_rho` call (the
initial guesses) and no inner solve. -/
theorem runInit_counting (c : Collaborators A) (s : hiopAugLagrSolver (A × CallCounts)) :
    (runInit (counting c) s).1.nlp.2 =
      ⟨s.nlp.2.solves, s.nlp.2.lambdaSets + 1, s.nlp.2.rhoSets + 1⟩ := by
  have hk := checkTermination_kept (runStart (counting c) s) (runStart (counting c) s)._err_feas
    (runStart (counting c) s)._err_optim (runStart (counting c) s).iter_num
    (runStart (counting c) s)._solverStatus
  show (checkTermination (runStart (counting c) s) (runStart (counting c) s)._err_feas
    (runStart (counting c) s)._err_optim (runStart (counting c) s).iter_num
    (runStart (counting c) s)._solverStatus).2.2.nlp.2 = _
  rw [hk.1]
  rfl

/-- The counted calls of one pass through the loop body: one inner solve, and one call each of
`updateLambda` and `updateRho` exactly when the pass does not leave through `break`. -/
theorem loopBody_counting (c : Collaborators A) (s : hiopAugLagrSolver (A × CallCounts)) :
    ((loopBody (counting c) s).2 = true ∧ (loopBody (counting c) s).1.nlp.2 =
        ⟨s.nlp.2.solves + 1, s.nlp.2.lambdaSets, s.nlp.2.rhoSets⟩) ∨
    ((loopBody (counting c) s).2 = false ∧ (loopBody (counting c) s).1.nlp.2 =
        ⟨s.nlp.2.solves + 1, s.nlp.2.lambdaSets + 1, s.nlp.2.rhoSets + 1⟩) := by
  have hk := checkTermination_kept (solveAndEval (counting c) s)
    (solveAndEval (counting c) s)._err_feas (solveAndEval (counting c) s)._err_optim
    (solveAndEval (counting c) s).iter_num (solveAndEval (counting c) s)._solverStatus
  unfold loopBody
  dsimp only
  split_ifs with ht
  · refine Or.inl ⟨rfl, ?_⟩
    show (checkTermination (solveAndEval (counting c) s)
      (solveAndEval (counting c) s)._err_feas (solveAndEval (counting c) s)._err_optim
      (solveAndEval (counting c) s).iter_num
      (solveAndEval (counting c) s)._solverStatus).2.2.nlp.2 = _
    rw [hk.1, solveAndEval_counting]
  · refine Or.inr ⟨rfl, ?_⟩
    rw [advance_counting]
    show CallCounts.mk
      ((checkTermination (solveAndEval (counting c) s)
        (solveAndEval (counting c) s)._err_feas (solveAndEval (counting c) s)._err_optim
        (solveAndEval (counting c) s).iter_num
        (solveAndEval (counting c) s)._solverStatus).2.2.nlp.2.solves)
      ((checkTermination (solveAndEval (counting c) s)
        (solveAndEval (counting c) s)._err_feas (solveAndEval (counting c) s)._err_optim
        (solveAndEval (counting c) s).iter_num
        (solveAndEval (counting c) s)._solverStatus).2.2.nlp.2.lambdaSets + 1)
      ((checkTermination (solveAndEval (counting c) s)
        (solveAndEval (counting c) s)._err_feas (solveAndEval (counting c) s)._err_optim
        (solveAndEval (counting c) s).iter_num
        (solveAndEval (counting c) s)._solverStatus).2.2.nlp.2.rhoSets + 1) = _
    rw [hk.1, solveAndEval_counting]

/-- Over the whole loop, the number of inner solves grows by one more than `iter_num`, and the
numbers of `set_lambda` and of `set_rho` calls grow exactly as `iter_num`. -/
theorem outerLoop_counting (c : Collaborators A) (fuel : Nat)
    (s s1 : hiopAugLagrSolver (A × CallCounts))
    (h : outerLoop (counting c) fuel s = some s1) :
    (s1.nlp.2.solves : Int) - s1.iter_num = (s.nlp.2.solves : Int) - s.iter_num + 1 ∧
    (s1.nlp.2.lambdaSets : Int) - s1.iter_num = (s.nlp.2.lambdaSets : Int) - s.iter_num ∧
    (s1.nlp.2.rhoSets : Int) - s1.iter_num = (s.nlp.2.rhoSets : Int) - s.iter_num := by
  induction fuel generalizing s with
  | zero => simp [outerLoop] at h
  | succ fuel ih =>
    rw [outerLoop_succ] at h
    obtain ⟨hcase, _⟩ := loopBody_iter (counting c) s
    have hcnt := loopBody_counting c s
    split_ifs at h with hb
    · have h1 : (loopBody (counting c) s).1 = s1 := by simpa using h
      rcases hcase with ⟨_, hit⟩ | ⟨hb2, _⟩
      · rcases hcnt with ⟨_, hc⟩ | ⟨hb3, _⟩
        · rw [← h1, hit, hc]
          refine ⟨?_, rfl, rfl⟩
          push_cast
          ring
        · rw [hb] at hb3
          exact absurd hb3 (by simp)
      · rw [hb] at hb2
        exact absurd hb2 (by simp)
    · obtain ⟨i1, i2, i3⟩ := ih _ h
      rcases hcase with ⟨hb2, _⟩ | ⟨_, hit, _⟩
      · exact absurd hb2 hb
      · rcases hcnt with ⟨hb3, _⟩ | ⟨_, hc⟩
        · exact absurd hb3 hb
        · rw [hit, hc] at i1 i2 i3
          push_cast at i1 i2 i3
          refine ⟨by linarith, by linarith, by linarith⟩

/-! ## The call counters do not change the run -/

theorem eraseCounts_checkTermination (s : hiopAugLagrSolver (A × CallCounts))
    (err_feas err_optim : ℚ) (iter_num : Int) (status : hiopSolveStatus) :
    (checkTermination (eraseCounts s) err_feas err_optim iter_num status).1 =
      (checkTermination s err_feas err_optim iter_num status).1 ∧
    (checkTermination (eraseCounts s) err_feas err_optim iter_num status).2.1 =
      (checkTermination s err_feas err_optim iter_num status).2.1 ∧
    (checkTermination (eraseCounts s) err_feas err_optim iter_num status).2.2 =
      eraseCounts (checkTermination s err_feas err_optim iter_num status).2.2 := by
  unfold checkTermination
  simp only [eraseCounts]
  split_ifs <;> exact ⟨rfl, rfl, rfl⟩

theorem eraseCounts_solveAndEval (c : Collaborators A)
    (s : hiopAugLagrSolver (A × CallCounts)) :
    eraseCounts (solveAndEval (counting c) s) = solveAndEval c (eraseCounts s) := rfl

theorem eraseCounts_advance (c : Collaborators A) (s : hiopAugLagrSolver (A × CallCounts)) :
    eraseCounts (advance (counting c) s) = advance c (eraseCounts s) := rfl

theorem eraseCounts_runStart (c : Collaborators A) (s : hiopAugLagrSolver (A × CallCounts)) :
    eraseCounts (runStart (counting c) s) = runStart c (eraseCounts s) := rfl

theorem eraseCounts_loopBody (c : Collaborators A) (s : hiopAugLagrSolver (A × CallCounts)) :
    loopBody c (eraseCounts s) =
      (eraseCounts (loopBody (counting c) s).1, (loopBody (counting c) s).2) := by
  obtain ⟨h1, h2, h3⟩ := eraseCounts_checkTermination (solveAndEval (counting c) s)
    (solveAndEval (counting c) s)._err_feas (solveAndEval (counting c) s)._err_optim
    (solveAndEval (counting c) s).iter_num (solveAndEval (counting c) s)._solverStatus
  rw [eraseCounts_solveAndEval] at h1 h2 h3
  unfold loopBody
  dsimp only
  have e1 : (solveAndEval c (eraseCounts s))._err_feas =
      (solveAndEval (counting c) s)._err_feas := rfl
  have e2 : (solveAndEval c (eraseCounts s))._err_optim =
      (solveAndEval (counting c) s)._err_optim := rfl
  have e3 : (solveAndEval c (eraseCounts s)).iter_num =
      (solveAndEval (counting c) s).iter_num := rfl
  have e4 : (solveAndEval c (eraseCounts s))._solverStatus =
      (solveAndEval (counting c) s)._solverStatus := rfl
  rw [e1, e2, e3, e4, h1, h2, h3]
  split_ifs <;> rfl

theorem eraseCounts_outerLoop (c : Collaborators A) (fuel : Nat)
    (s : hiopAugLagrSolver (A × CallCounts)) :
    outerLoop c fuel (eraseCounts s) = (outerLoop (counting c) fuel s).map eraseCounts := by
  induction fuel generalizing s with
  | zero => rfl
  | succ fuel ih =>
    rw [outerLoop_succ, outerLoop_succ, eraseCounts_loopBody]
    dsimp only
    split_ifs
    · rfl
    · exact ih _

theorem eraseCounts_runInit (c : Collaborators A) (s : hiopAugLagrSolver (A × CallCounts)) :
    runInit c (eraseCounts s) =
      (eraseCounts (runInit (counting c) s).1, (runInit (counting c) s).2) := by
  obtain ⟨h1, h2, h3⟩ := eraseCounts_checkTermination (runStart (counting c) s)
    (runStart (counting c) s)._err_feas (runStart (counting c) s)._err_optim
    (runStart (counting c) s).iter_num (runStart (counting c) s)._solverStatus
  rw [eraseCounts_runStart] at h1 h2 h3
  unfold runInit
  dsimp only
  have e1 : (runStart c (eraseCounts s))._err_feas = (runStart (counting c) s)._err_feas := rfl
  have e2 : (runStart c (eraseCounts s))._err_optim =
      (runStart (counting c) s)._err_optim := rfl
  have e3 : (runStart c (eraseCounts s)).iter_num = (runStart (counting c) s).iter_num := rfl
  have e4 : (runStart c (eraseCounts s))._solverStatus =
      (runStart (counting c) s)._solverStatus := rfl
  rw [e1, e2, e3, e4, h1, h3]
  rfl

/-- Running with the call counters attached and removing them afterwards is the same as running
without them: same status, same solver. -/
theorem eraseCounts_run (c : Collaborators A) (s : hiopAugLagrSolver (A × CallCounts)) :
    run c (eraseCounts s) =
      (run (counting c) s).map (fun r => (r.1, eraseCounts r.2)) := by
  have hfuel : c.GetInteger (eraseCounts s).nlp "max_iter" =
      (counting c).GetInteger s.nlp "max_iter" := rfl
  unfold run runFuel
  dsimp only
  rw [eraseCounts_runInit, hfuel]
  dsimp only
  split_ifs
  · rw [eraseCounts_outerLoop]
    cases outerLoop (counting c) (((counting c).GetInteger s.nlp "max_iter").toNat + 1)
      (runInit (counting c) s).1 <;> rfl
  · rfl

/-! ## C12 -/

/-- C12: for every `max_n_it ≥ 0` and all collaborators (whose calls return), `run` returns:
the outer loop ends within `max_n_it + 1` passes. With call counters attached to the
collaborators and started at zero, on return the number of inner solves is `iter_num + 1` when
the loop was entered and `0` otherwise, hence at most `max_n_it + 1`; `0 ≤ iter_num ≤ max_n_it`;
and the `set_lambda` and `set_rho` calls made after the part of `run` before the loop, one per
call of `updateLambda` and one per call of `updateRho`, both number `iter_num` (one more each
counting the initial guesses installed before the loop). -/
theorem run_terminates_and_counts (c : Collaborators A)
    (s : hiopAugLagrSolver (A × CallCounts))
    (hmax : 0 ≤ c.GetInteger s.nlp.1 "max_iter") (h0 : s.nlp.2 = ⟨0, 0, 0⟩) :
    ∃ r, run (counting c) s = some r ∧
      r.2.max_n_it = c.GetInteger s.nlp.1 "max_iter" ∧
      (r.2.nlp.2.solves : Int) = (if (runInit (counting c) s).2 then r.2.iter_num + 1 else 0) ∧
      (r.2.nlp.2.solves : Int) ≤ r.2.max_n_it + 1 ∧
      0 ≤ r.2.iter_num ∧ r.2.iter_num ≤ r.2.max_n_it ∧
      (r.2.nlp.2.lambdaSets : Int) - (runInit (counting c) s).1.nlp.2.lambdaSets =
        r.2.iter_num ∧
      (r.2.nlp.2.rhoSets : Int) - (runInit (counting c) s).1.nlp.2.rhoSets = r.2.iter_num ∧
      (r.2.nlp.2.lambdaSets : Int) = r.2.iter_num + 1 ∧
      (r.2.nlp.2.rhoSets : Int) = r.2.iter_num + 1 := by
  obtain ⟨r, hr, _, hm, hi0, hile⟩ := run_returns (counting c) s
  have hile2 : r.2.iter_num ≤ r.2.max_n_it := hile hmax
  have hm2 : r.2.max_n_it = c.GetInteger s.nlp.1 "max_iter" := hm
  obtain ⟨hinit0, _, _⟩ := runInit_iter (counting c) s
  have hcnt := runInit_counting c s
  rw [h0] at hcnt
  have hrun := hr
  unfold run runFuel at hrun
  dsimp only at hrun
  by_cases hn : (runInit (counting c) s).2 = true
  · rw [if_pos hn] at hrun
    cases hloop : outerLoop (counting c) (((counting c).GetInteger s.nlp "max_iter").toNat + 1)
        (runInit (counting c) s).1 with
    | none => rw [hloop] at hrun; simp at hrun
    | some s1 =>
      rw [hloop] at hrun
      have hs1 : r.2 = s1 := by
        have : (s1._solverStatus, s1) = r := by simpa using hrun
        rw [← this]
      obtain ⟨c1, c2, c3⟩ := outerLoop_counting c _ _ _ hloop
      rw [← hs1, hinit0, hcnt] at c1 c2 c3
      simp only [Nat.cast_zero, Nat.cast_one, Nat.cast_add] at c1 c2 c3
      refine ⟨r, hr, hm2, ?_, ?_, hi0, hile2, ?_, ?_, ?_, ?_⟩
      · rw [if_pos hn]; linarith
      · linarith
      · rw [hcnt]; push_cast; linarith
      · rw [hcnt]; push_cast; linarith
      · linarith
      · linarith
  · rw [if_neg hn] at hrun
    have hs1 : r.2 = (runInit (counting c) s).1 := by
      have : ((runInit (counting c) s).1._solverStatus, (runInit (counting c) s).1) = r := by
        simpa using hrun
      rw [← this]
    have hit : r.2.iter_num = 0 := by rw [hs1, hinit0]
    have hnlp : r.2.nlp.2 = ⟨0, 0 + 1, 0 + 1⟩ := by rw [hs1, hcnt]
    refine ⟨r, hr, hm2, ?_, ?_, hi0, hile2, ?_, ?_, ?_, ?_⟩
    · rw [if_neg hn, hnlp]; rfl
    · rw [hnlp]; push_cast; linarith
    · rw [hnlp, hcnt, hit]; norm_num
    · rw [hnlp, hcnt, hit]; norm_num
    · rw [hnlp, hit]; norm_num
    · rw [hnlp, hit]; norm_num

/-- Witness for C12: the concrete problem with call counters (`max_iter = 1000`): the run
returns with `iter_num = 2` after 3 inner solves, 2 calls of `updateLambda` and 2 calls of
`updateRho` (3 `set_lambda` and 3 `set_rho` calls with the initial guesses). -/
theorem run_terminates_and_counts_witness :
    ((0 : Int) ≤ (demoCollab 1 100).GetInteger demoSolverCounted.nlp.1 "max_iter" ∧
      demoSolverCounted.nlp.2 = ⟨0, 0, 0⟩) ∧
    ∃ r, run (counting (demoCollab 1 100)) demoSolverCounted = some r ∧
      r.2.max_n_it = 1000 ∧ r.2.iter_num = 2 ∧ r.2.nlp.2.solves = 3 ∧
      r.2.nlp.2.lambdaSets = 3 ∧ r.2.nlp.2.rhoSets = 3 := by
  have hmax : (0 : Int) ≤ (demoCollab 1 100).GetInteger demoSolverCounted.nlp.1 "max_iter" := by
    simp [demoCollab]
  have h0 : demoSolverCounted.nlp.2 = ⟨0, 0, 0⟩ := rfl
  obtain ⟨r, hr, hm, hs, _, _, _, _, _, hl, hrho⟩ :=
    run_terminates_and_counts (demoCollab 1 100) demoSolverCounted hmax h0
  have he := eraseCounts_run (demoCollab 1 100) demoSolverCounted
  rw [show eraseCounts demoSolverCounted = demoSolver from rfl, run_demoSolver, hr] at he
  have he2 : eraseCounts r.2 = demoState 3 (1 / 10 ^ 4) (1 / 10 ^ 6)
      (100010000001 / 100000000000) (10 ^ 8) hiopSolveStatus.Solve_Success 2 1 := by
    have := congrArg (fun o => o.map Prod.snd) he
    simpa using this.symm
  have hit : r.2.iter_num = 2 := congrArg (fun t => t.iter_num) he2
  have hinit := eraseCounts_runInit (demoCollab 1 100) demoSolverCounted
  rw [show eraseCounts demoSolverCounted = demoSolver from rfl, runInit_demoSolver] at hinit
  have hn : (runInit (counting (demoCollab 1 100)) demoSolverCounted).2 = true :=
    (congrArg Prod.snd hinit).symm
  rw [if_pos hn, hit] at hs
  rw [hit] at hl hrho
  refine ⟨⟨hmax, h0⟩, r, hr, ?_, hit, ?_, ?_, ?_⟩
  · rw [hm]; simp [demoCollab]
  · omega
  · omega
  · omega

/-! ## The objective value held by the solver after a run -/

theorem checkTermination_objective (c : Collaborators A) (s : hiopAugLagrSolver A)
    (err_feas err_optim : ℚ) (iter_num : Int) (status : hiopSolveStatus)
    (h : ∃ a, s._f_nlp = (c.eval_f_user a s.n s._it_curr).1) :
    ∃ a, (checkTermination s err_feas err_optim iter_num status).2.2._f_nlp =
      (c.eval_f_user a (checkTermination s err_feas err_optim iter_num status).2.2.n
        (checkTermination s err_feas err_optim iter_num status).2.2._it_curr).1 := by
  obtain ⟨k, hk⟩ := checkTermination_frame s err_feas err_optim iter_num status
  rw [hk]
  exact h

theorem solveAndEval_objective (c : Collaborators A) (s : hiopAugLagrSolver A) :
    ∃ a, (solveAndEval c s)._f_nlp =
      (c.eval_f_user a (solveAndEval c s).n (solveAndEval c s)._it_curr).1 :=
  ⟨(c.solveSubproblem s.nlp).2, rfl⟩

theorem loopBody_break_objective (c : Collaborators A) (s : hiopAugLagrSolver A)
    (h : (loopBody c s).2 = true) :
    ∃ a, (loopBody c s).1._f_nlp =
      (c.eval_f_user a (loopBody c s).1.n (loopBody c s).1._it_curr).1 := by
  have hobj := checkTermination_objective c (solveAndEval c s) (solveAndEval c s)._err_feas
    (solveAndEval c s)._err_optim (solveAndEval c s).iter_num (solveAndEval c s)._solverStatus
    (solveAndEval_objective c s)
  unfold loopBody at h ⊢
  dsimp only at h ⊢
  split_ifs at h ⊢ with ht
  exact hobj

theorem outerLoop_objective (c : Collaborators A) (fuel : Nat) (s s1 : hiopAugLagrSolver A)
    (h : outerLoop c fuel s = some s1) :
    ∃ a, s1._f_nlp = (c.eval_f_user a s1.n s1._it_curr).1 := by
  induction fuel generalizing s with
  | zero => simp [outerLoop] at h
  | succ fuel ih =>
    rw [outerLoop_succ] at h
    split_ifs at h with hb
    · have h2 : (loopBody c s).1 = s1 := by simpa using h
      rw [← h2]
      exact loopBody_break_objective c s hb
    · exact ih _ h

/-- After `run`, the member `_f_nlp` is the user objective that `evalNlp` computed at the final
iterate `_it_curr` (for the adapter state `a` at the time of that evaluation). -/
theorem run_objective (c : Collaborators A) (s : hiopAugLagrSolver A)
    (r : hiopSolveStatus × hiopAugLagrSolver A) (h : run c s = some r) :
    ∃ a, r.2._f_nlp = (c.eval_f_user a r.2.n r.2._it_curr).1 := by
  unfold run runFuel at h
  dsimp only at h
  split_ifs at h with hn
  · cases hloop : outerLoop c ((c.GetInteger s.nlp "max_iter").toNat + 1) (runInit c s).1 with
    | none => rw [hloop] at h; simp at h
    | some s1 =>
      rw [hloop] at h
      have hr : (s1._solverStatus, s1) = r := by simpa using h
      rw [← hr]
      exact outerLoop_objective c _ _ _ hloop
  · have hr : ((runInit c s).1._solverStatus, (runInit c s).1) = r := by simpa using h
    rw [← hr]
    have hobj := checkTermination_objective c (runStart c s) (runStart c s)._err_feas
      (runStart c s)._err_optim (runStart c s).iter_num (runStart c s)._solverStatus
      ⟨_, rfl⟩
    exact hobj

end hiopAugLagrSolver

end hiop
